import Mathlib

/-!
# logger-poc: gating and call-site accounting

A shallow embedding of the three logger variants of the repository

* `logger/logger.go` (namespace `LoggerPoc.Base`): module bit mask and package allow-set,
* `logger/simple/logger.go` (namespace `LoggerPoc.Simple`): first-occurrence counter,
* `logger/zap/logger.go` (namespace `LoggerPoc.Zap`): package allow-set and metrics,

followed by the properties proved about them.

Conventions of the embedding.

* A Go `string` is a byte string; it is modelled as the list of its bytes, every byte
  written as a `Char`.
* A Go `map` is modelled as an association list read and written through `GoMap.get`
  and `GoMap.set`.
* `uint32` and `uint64` values are natural numbers, reduced modulo `2 ^ 32` where the
  code increments.
* A function that can panic returns an `Option`; `none` is the panic.
* The goroutine's call stack is a list of frames, innermost first.  A modelled function
  receives the frames of its callers and puts its own frame in front when it calls on.
* The zap and logrus back ends are outside the repository: a back end is the list of
  the calls made on it, oldest first.
-/

namespace LoggerPoc

/-! ## Go strings -/

/-- A Go string: its bytes in order. -/
abbrev GoString := List Char

/-- Go's `strings.LastIndexByte(s, c)`: index of the last `c` in `s`, or `-1`. -/
def LastIndexByte : GoString → Char → Int
  | [], _ => -1
  | x :: xs, c =>
    let r := LastIndexByte xs c
    if 0 ≤ r then r + 1 else if x = c then 0 else -1

/-- Go's `strings.Index(s, substr)`: index of the first occurrence of `substr` in `s`,
or `-1`. -/
def Index : GoString → GoString → Int
  | [], substr => if substr = [] then 0 else -1
  | x :: xs, substr =>
    if substr.isPrefixOf (x :: xs) then 0
    else
      let r := Index xs substr
      if r < 0 then -1 else r + 1

/-- The slice expression `s[lo:hi]`; it panics unless `0 ≤ lo ≤ hi ≤ len(s)`. -/
def slice (s : GoString) (lo hi : Int) : Option GoString :=
  if 0 ≤ lo ∧ lo ≤ hi ∧ hi ≤ (s.length : Int) then
    some ((s.drop lo.toNat).take (hi.toNat - lo.toNat))
  else none

/-- The slice expression `s[lo:]`. -/
def sliceFrom (s : GoString) (lo : Int) : Option GoString :=
  slice s lo s.length

/-- The slice expression `s[:hi]`. -/
def sliceTo (s : GoString) (hi : Int) : Option GoString :=
  slice s 0 hi

/-- The part of a name after its last `/`, the whole name when it has none.  It words
the comparison of the resolvers' results and is not a function of the source. -/
def partAfterLastSlash (s : GoString) : GoString :=
  s.drop (LastIndexByte s '/' + 1).toNat

/-! ## Go maps -/

/-- A Go map: its entries, at most one of which is read for a key (the first). -/
abbrev GoMap (κ : Type) (ν : Type) := List (κ × ν)

namespace GoMap

variable {κ ν : Type} [DecidableEq κ]

/-- The entry stored for `k`, if any. -/
def lookup : GoMap κ ν → κ → Option ν
  | [], _ => none
  | (k', v) :: m, k => if k' = k then some v else lookup m k

/-- The read `v, found := m[k]`; the value is the zero value `z` when `k` is absent. -/
def get (z : ν) (m : GoMap κ ν) (k : κ) : ν × Bool :=
  match lookup m k with
  | some v => (v, true)
  | none => (z, false)

/-- The write `m[k] = v`. -/
def set : GoMap κ ν → κ → ν → GoMap κ ν
  | [], k, v => [(k, v)]
  | (k', v') :: m, k, v => if k' = k then (k, v) :: m else (k', v') :: set m k v

/-- The keys of the map. -/
def keys (m : GoMap κ ν) : List κ := m.map Prod.fst

/-- Go's `len(m)`. -/
def len (m : GoMap κ ν) : Nat := m.length

end GoMap

/-! ## Call stack -/

/-- One frame of the call stack as `runtime.Caller` and `runtime.FuncForPC` report it:
the function's fully qualified name and the file and line the frame is executing. -/
structure Frame where
  funcName : GoString
  file : GoString
  line : Int
  deriving DecidableEq, Repr

/-- Go's `runtime.Caller(skip)` run by the function of frame `0` of `stk`:
frame `skip` of the stack, `none` standing for `ok = false`. -/
def Caller (stk : List Frame) (skip : Nat) : Option Frame :=
  stk.get? skip

/-! ## Severity levels (`zapcore.Level`) -/

/-- A `zapcore.Level`. -/
abbrev Level := Int

def DebugLevel : Level := -1
def InfoLevel : Level := 0
def WarnLevel : Level := 1
def ErrorLevel : Level := 2
def DPanicLevel : Level := 3
def PanicLevel : Level := 4
def FatalLevel : Level := 5

/-- A structured field handed to the back end. -/
structure Field where
  key : GoString
  value : GoString
  deriving DecidableEq, Repr

/-- One call of a severity method of the zap back end. -/
structure BackendCall where
  level : Level
  msg : GoString
  fields : List Field
  deriving DecidableEq, Repr

/-- Call origin: a source file and line. -/
structure LogOrigin where
  File : GoString
  Line : Int
  deriving DecidableEq, Repr

/-! ## Map objects

A Go map is a reference: a variable of map type holds the address of a map object, and
two variables may hold the same address.  Where that matters the map objects live in a
heap and a map variable holds an index into it. -/

/-- The map objects of the program, by address. -/
abbrev MapHeap := List (GoMap LogOrigin Nat)

/-- The map object at address `r`. -/
def MapHeap.read (h : MapHeap) (r : Nat) : GoMap LogOrigin Nat := h.getD r []

/-- The heap after the map object at address `r` has become `m`. -/
def MapHeap.write (h : MapHeap) (r : Nat) (m : GoMap LogOrigin Nat) : MapHeap := h.set r m

/-- Go's `make(map[LogOrigin]uint32, n)`: the heap with one more, empty, map object and
the address of that object. -/
def MapHeap.make (h : MapHeap) : MapHeap × Nat := (h ++ [[]], h.length)

/-! ## Process environment and panics -/

/-- The environment variables of the process. -/
abbrev Env := GoMap GoString GoString

/-- Go's `os.Getenv(key)`: the value of the variable, empty when it is not set. -/
def Getenv (env : Env) (key : GoString) : GoString := (GoMap.get [] env key).1

/-- How a call that changes package-level variables ends: it returns or it panics, and
either way it leaves a state of the variables behind. -/
inductive Outcome (σ : Type) where
  | returned (s : σ)
  | panicked (s : σ)
  deriving DecidableEq, Repr

/-! ## `logger/simple/logger.go` -/

namespace Simple

/-- The type `LogCounter`; the mutex is not modelled, calls are run one after another. -/
structure LogCounter where
  data : GoMap LogOrigin Nat
  deriving DecidableEq, Repr

/-- The method `LogCounter.update`: `_, found := lc.data[lo]; lc.data[lo]++; return !found`. -/
def LogCounter.update (lc : LogCounter) (lo : LogOrigin) : LogCounter × Bool :=
  let found := (GoMap.get 0 lc.data lo).2
  let lc1 : LogCounter := { data := GoMap.set lc.data lo (((GoMap.get 0 lc.data lo).1 + 1) % 2 ^ 32) }
  (lc1, !found)

/-- The method `LogCounter.Lookup`: `count, found = lc.data[key]`. -/
def LogCounter.Lookup (lc : LogCounter) (key : LogOrigin) : LogCounter × Nat × Bool :=
  (lc, GoMap.get 0 lc.data key)

/-- The function `newLogCounter`. -/
def newLogCounter : LogCounter := { data := [] }

/-- The type `LoggerConfig`; writer and encoder are handles of the zap library. -/
structure LoggerConfig where
  Writer : Nat
  Level : LoggerPoc.Level
  Encoder : Nat
  deriving DecidableEq, Repr

/-- The type `Logger`: `l` holds the calls made on the zap logger so far. -/
structure Logger where
  l : List BackendCall
  cfg : LoggerConfig
  LogCount : LogCounter
  deriving DecidableEq, Repr

/-- The function `NewLogger`; a nil configuration panics. -/
def NewLogger (cfg : Option LoggerConfig) : Option Logger :=
  match cfg with
  | none => none
  | some c => some { l := [], cfg := c, LogCount := newLogCounter }

/-- Source file of the simple variant, as the frames of its functions report it. -/
def srcFile : GoString := "logger/simple/logger.go".toList

/-- Frame of `getCallerInfo` while it calls `runtime.Caller` (line 159). -/
def frameGetCallerInfo : Frame :=
  { funcName := "github.com/geyslan/logger-poc/logger/simple.getCallerInfo".toList,
    file := srcFile, line := 159 }

/-- Lines 164 to 176 of `getCallerInfo`: the package computed from the function name.
`none` is the panic of an out-of-range slice expression. -/
def getCallerInfo_pkg (funcName : GoString) : Option GoString :=
  let lastSlash0 := LastIndexByte funcName '/'
  let lastSlash := if lastSlash0 < 0 then 0 else lastSlash0 + 1
  let lastDot := LastIndexByte funcName '.'
  match slice funcName lastSlash lastDot with
  | none => none
  | some pkg =>
    let possibleLastDot := LastIndexByte pkg '.'
    if possibleLastDot ≠ -1 then slice pkg 0 possibleLastDot else some pkg

/-- The function `getCallerInfo`, called with the frames `stk` of its callers. -/
def getCallerInfo (skip : Nat) (stk : List Frame) : Option (GoString × GoString × Int) :=
  match Caller (frameGetCallerInfo :: stk) (skip + 1) with
  | none => none
  | some fr =>
    match getCallerInfo_pkg fr.funcName with
    | none => none
    | some pkg => some (pkg, fr.file, fr.line)

/-- The method `Logger.updateCounter`. -/
def Logger.updateCounter (l : Logger) (file : GoString) (line : Int) : Logger × Bool :=
  let r := l.LogCount.update { File := file, Line := line }
  ({ l with LogCount := r.1 }, r.2)

/-- The call `l.l.Debug(msg, fields...)` and its siblings: one more call on the back end. -/
def Logger.emit (l : Logger) (lvl : Level) (msg : GoString) (fields : List Field) : Logger :=
  { l with l := l.l ++ [{ level := lvl, msg := msg, fields := fields }] }

/-- Frame of `debug` while it calls `getCallerInfo` (line 196). -/
def frameDebugHelper : Frame :=
  { funcName := "github.com/geyslan/logger-poc/logger/simple.debug".toList,
    file := srcFile, line := 196 }

/-- Frame of `err` while it calls `getCallerInfo` (line 212). -/
def frameErrHelper : Frame :=
  { funcName := "github.com/geyslan/logger-poc/logger/simple.err".toList,
    file := srcFile, line := 212 }

/-- Frame of `fatal` while it calls `getCallerInfo` (line 228). -/
def frameFatalHelper : Frame :=
  { funcName := "github.com/geyslan/logger-poc/logger/simple.fatal".toList,
    file := srcFile, line := 228 }

/-- The function `debug`. -/
def debug (skip : Nat) (l : Logger) (stk : List Frame) (msg : GoString)
    (fields : List Field) : Option Logger :=
  if l.cfg.Level > DebugLevel then some l
  else
    match getCallerInfo (skip + 1) (frameDebugHelper :: stk) with
    | none => none
    | some (_, file, line) =>
      let r := l.updateCounter file line
      if r.2 then some (r.1.emit DebugLevel msg fields) else some r.1

/-- The function `err`. -/
def err (skip : Nat) (l : Logger) (stk : List Frame) (msg : GoString)
    (fields : List Field) : Option Logger :=
  match getCallerInfo (skip + 1) (frameErrHelper :: stk) with
  | none => none
  | some (_, file, line) =>
    let r := l.updateCounter file line
    if r.2 then some (r.1.emit ErrorLevel msg fields) else some r.1

/-- The function `fatal`. -/
def fatal (skip : Nat) (l : Logger) (stk : List Frame) (msg : GoString)
    (fields : List Field) : Option Logger :=
  match getCallerInfo (skip + 1) (frameFatalHelper :: stk) with
  | none => none
  | some (_, file, line) =>
    let r := l.updateCounter file line
    if r.2 then some (r.1.emit FatalLevel msg fields) else some r.1

/-- Frame of a public entry point of the simple variant while it calls its helper. -/
def frameEntry (name : String) (line : Int) : Frame :=
  { funcName := "github.com/geyslan/logger-poc/logger/simple.".toList ++ name.toList,
    file := srcFile, line := line }

/-- The package-level function `Debug`, run on the package's `defaultLogger`. -/
def Debug (defaultLogger : Logger) (stk : List Frame) (msg : GoString)
    (fields : List Field) : Option Logger :=
  debug 1 defaultLogger (frameEntry "Debug" 203 :: stk) msg fields

/-- The method `Logger.Debug`. -/
def Logger.Debug (l : Logger) (stk : List Frame) (msg : GoString)
    (fields : List Field) : Option Logger :=
  debug 1 l (frameEntry "(*Logger).Debug" 207 :: stk) msg fields

/-- The package-level function `Error`, run on the package's `defaultLogger`. -/
def Error (defaultLogger : Logger) (stk : List Frame) (msg : GoString)
    (fields : List Field) : Option Logger :=
  err 1 defaultLogger (frameEntry "Error" 219 :: stk) msg fields

/-- The method `Logger.Error`. -/
def Logger.Error (l : Logger) (stk : List Frame) (msg : GoString)
    (fields : List Field) : Option Logger :=
  err 1 l (frameEntry "(*Logger).Error" 223 :: stk) msg fields

/-- The package-level function `Fatal`, run on the package's `defaultLogger`. -/
def Fatal (defaultLogger : Logger) (stk : List Frame) (msg : GoString)
    (fields : List Field) : Option Logger :=
  fatal 1 defaultLogger (frameEntry "Fatal" 235 :: stk) msg fields

/-- The method `Logger.Fatal`. -/
def Logger.Fatal (l : Logger) (stk : List Frame) (msg : GoString)
    (fields : List Field) : Option Logger :=
  fatal 1 l (frameEntry "(*Logger).Fatal" 239 :: stk) msg fields

/-- The method `LogCounter.Dump`: a new map filled with the entries of `lc.data`, which
the loop visits here in the order of the list. -/
def LogCounter.Dump (lc : LogCounter) : LogCounter × GoMap LogOrigin Nat :=
  (lc, lc.data.foldl (fun dump e => GoMap.set dump e.1 e.2) [])

/-- The method `LogCounter.update` on a counter whose field `data` holds address `r`. -/
def updateAt (h : MapHeap) (r : Nat) (lo : LogOrigin) : MapHeap × Bool :=
  let res := LogCounter.update { data := MapHeap.read h r } lo
  (MapHeap.write h r res.1.data, res.2)

/-- The method `LogCounter.Dump` on a counter whose field `data` holds address `r`: the
heap afterwards and the address of the map returned. -/
def DumpAt (h : MapHeap) (r : Nat) : MapHeap × Nat :=
  let a := MapHeap.make h
  ((MapHeap.read h r).foldl
    (fun hh e => MapHeap.write hh a.2 (GoMap.set (MapHeap.read hh a.2) e.1 e.2)) a.1, a.2)

/-- Calls of `update`, one after another, on a counter whose field `data` holds address
`r`. -/
def updateAllAt (h : MapHeap) (r : Nat) : List LogOrigin → MapHeap
  | [] => h
  | o :: os => updateAllAt (updateAt h r o).1 r os

/-- The constant `LOGGER_LVL`. -/
def LOGGER_LVL : GoString := "LOGGER_LVL".toList

/-- The function `getLoggerLevelFromEnv`: the level it returns and the value it leaves in
the package variable `setFromEnv`. -/
def getLoggerLevelFromEnv (env : Env) : Level × Bool :=
  let lvlEnv := Getenv env LOGGER_LVL
  if lvlEnv = "debug".toList then (DebugLevel, true)
  else if lvlEnv = "info".toList then (InfoLevel, true)
  else if lvlEnv = "warn".toList then (WarnLevel, true)
  else if lvlEnv = "error".toList then (ErrorLevel, true)
  else if lvlEnv = "dpanic".toList then (DPanicLevel, true)
  else if lvlEnv = "panic".toList then (PanicLevel, true)
  else if lvlEnv = "fatal".toList then (FatalLevel, true)
  else (InfoLevel, false)

/-- The package-level variables `defaultLogger` and `setFromEnv`. -/
structure Package where
  defaultLogger : Logger
  setFromEnv : Bool
  deriving DecidableEq, Repr

/-- The function `IsSetFromEnv`. -/
def IsSetFromEnv (p : Package) : Bool := p.setFromEnv

/-- The function `Default`. -/
def Default (p : Package) : Logger := p.defaultLogger

/-- The package's `init` function: the package variables when the program starts.  The
writer 2 is `os.Stderr`; encoder 1 is the JSON encoder with the development
configuration, encoder 0 the one with the production configuration. -/
def init (env : Env) : Option Package :=
  let r := getLoggerLevelFromEnv env
  let enc : Nat := if r.1 = DebugLevel then 1 else 0
  match NewLogger (some { Writer := 2, Level := r.1, Encoder := enc }) with
  | none => none
  | some l => some { defaultLogger := l, setFromEnv := r.2 }

/-- The function `Reset`. -/
def Reset (p : Package) (cfg : Option LoggerConfig) : Outcome Package :=
  match cfg with
  | none => Outcome.panicked p
  | some c =>
    match NewLogger (some c) with
    | none => Outcome.panicked p
    | some l => Outcome.returned { p with defaultLogger := l }

/-- Calls of `update` run one after another, as the exclusive lock serialises them:
the final counter and the result of every call, in order. -/
def updateAll (lc : LogCounter) : List LogOrigin → LogCounter × List Bool
  | [] => (lc, [])
  | o :: os =>
    ((updateAll (lc.update o).1 os).1, (lc.update o).2 :: (updateAll (lc.update o).1 os).2)

/-- The results, in order, of the calls of a run that were made for origin `o`. -/
def resultsFor (o : LogOrigin) (os : List LogOrigin) (bs : List Bool) : List Bool :=
  ((os.zip bs).filter (fun p => decide (p.1 = o))).map Prod.snd

/-- The logger after the counter update for `(file, line)` and, when that update was the
first for the origin, one call of the back end at level `lvl`. -/
def afterCall (l : Logger) (lvl : Level) (file : GoString) (line : Int)
    (msg : GoString) (fields : List Field) : Logger :=
  { l := l.l ++ (if (l.LogCount.update { File := file, Line := line }).2
      then [{ level := lvl, msg := msg, fields := fields }] else []),
    cfg := l.cfg,
    LogCount := (l.LogCount.update { File := file, Line := line }).1 }

end Simple

/-! ## `logger/logger.go` -/

namespace Base

/-- The type `Logger`: package allow-set and module bit mask (a `uint64`). -/
structure Logger where
  pkgs : GoMap GoString Bool
  modules : Nat
  deriving DecidableEq, Repr

/-- The function `Init`. -/
def Init : Logger := { pkgs := [], modules := 0 }

/-- Source file of `logger/logger.go`, as the frames of its functions report it. -/
def srcFile : GoString := "logger/logger.go".toList

/-- Frame of `getCallerPackage` while it calls `runtime.Caller` (line 27). -/
def frameGetCallerPackage : Frame :=
  { funcName := "github.com/geyslan/logger-poc/logger.getCallerPackage".toList,
    file := srcFile, line := 27 }

/-- Lines 30 to 36 of `getCallerPackage`: the package computed from the function name.
`none` is the panic of an out-of-range slice expression. -/
def getCallerPackage_pkg (funcName : GoString) : Option GoString :=
  let lastSlash0 := LastIndexByte funcName '/'
  let lastSlash := if lastSlash0 < 0 then 0 else lastSlash0
  match sliceFrom funcName lastSlash with
  | none => none
  | some rest =>
    let firstDot := Index rest ['.'] + lastSlash
    sliceTo funcName firstDot

/-- The function `getCallerPackage`, called with the frames `stk` of its callers.  The
`ok` result of `runtime.Caller` is dropped: without a frame the program counter is 0,
`runtime.FuncForPC` returns nil and `Name` of a nil function is the empty string. -/
def getCallerPackage (skip : Nat) (stk : List Frame) : Option GoString :=
  let funcName : GoString :=
    match Caller (frameGetCallerPackage :: stk) (skip + 1) with
    | some fr => fr.funcName
    | none => []
  getCallerPackage_pkg funcName

/-- Frame of `isPackageSet` while it calls `getCallerPackage` (line 44). -/
def frameIsPackageSet : Frame :=
  { funcName := "github.com/geyslan/logger-poc/logger.Logger.isPackageSet".toList,
    file := srcFile, line := 44 }

/-- The method `Logger.isPackageSet`. -/
def Logger.isPackageSet (l : Logger) (stk : List Frame) : Option Bool :=
  if GoMap.len l.pkgs = 0 then some true
  else
    match getCallerPackage 2 (frameIsPackageSet :: stk) with
    | none => none
    | some callerPackage => some (GoMap.get false l.pkgs callerPackage).2

/-- The method `Logger.isModuleSet`. -/
def Logger.isModuleSet (l : Logger) (moduleBitFlag : Nat) : Bool :=
  if l.modules = 0 then true
  else decide (l.modules &&& moduleBitFlag ≠ 0)

/-- One call `log.Warnf(format, args...)` of the logrus package. -/
structure LogrusCall where
  format : GoString
  args : List GoString
  deriving DecidableEq, Repr

/-- Frame of `WarnfPkg` while it calls `isPackageSet` (line 52). -/
def frameWarnfPkg : Frame :=
  { funcName := "github.com/geyslan/logger-poc/logger.(*Logger).WarnfPkg".toList,
    file := srcFile, line := 52 }

/-- The method `Logger.WarnfPkg`; `out` holds the calls made on logrus so far. -/
def Logger.WarnfPkg (l : Logger) (out : List LogrusCall) (stk : List Frame)
    (format : GoString) (args : List GoString) : Option (List LogrusCall) :=
  match l.isPackageSet (frameWarnfPkg :: stk) with
  | none => none
  | some false => some out
  | some true => some (out ++ [{ format := format, args := args }])

/-- The method `Logger.WarnfModule`; `out` holds the calls made on logrus so far. -/
def Logger.WarnfModule (l : Logger) (out : List LogrusCall) (moduleBitFlag : Nat)
    (format : GoString) (args : List GoString) : List LogrusCall :=
  if !l.isModuleSet moduleBitFlag then out
  else out ++ [{ format := format, args := args }]

/-- The method `Logger.ConfigureMod`; the output and hook it installs in logrus are
settings of that library and are left out. -/
def Logger.ConfigureMod (l : Logger) (modules : Nat) : Logger :=
  { l with modules := modules }

/-- The method `Logger.ConfigurePkg`; the output and hook it installs in logrus are
settings of that library and are left out. -/
def Logger.ConfigurePkg (l : Logger) (pkgs : List GoString) : Logger :=
  if pkgs.length > 0 then
    { l with pkgs := pkgs.foldl (fun m pkg => GoMap.set m pkg true) l.pkgs }
  else l

end Base

/-! ## `logger/zap/logger.go` -/

namespace Zap

/-- The type `LogCounter`; the mutex is not modelled, calls are run one after another. -/
structure LogCounter where
  data : GoMap LogOrigin Nat
  deriving DecidableEq, Repr

/-- A Go `error` value.  The only one the package builds is
`fmt.Errorf("LogCount key not found: %v", key)`. -/
inductive GoError where
  | keyNotFound (key : LogOrigin)
  deriving DecidableEq, Repr

/-- The method `LogCounter.update`: `lc.data[lo]++`. -/
def LogCounter.update (lc : LogCounter) (lo : LogOrigin) : LogCounter :=
  { data := GoMap.set lc.data lo (((GoMap.get 0 lc.data lo).1 + 1) % 2 ^ 32) }

/-- The method `LogCounter.Lookup`; the second result is the `error`, `none` for nil. -/
def LogCounter.Lookup (lc : LogCounter) (key : LogOrigin) :
    LogCounter × Nat × Option GoError :=
  let r := GoMap.get 0 lc.data key
  if !r.2 then (lc, 0, some (GoError.keyNotFound key))
  else (lc, r.1, none)

/-- The method `LogCounter.Dump`: a new map filled with the entries of `lc.data`, which
the loop visits here in the order of the list. -/
def LogCounter.Dump (lc : LogCounter) : LogCounter × GoMap LogOrigin Nat :=
  (lc, lc.data.foldl (fun dump e => GoMap.set dump e.1 e.2) [])

/-- The method `LogCounter.update` on a counter whose field `data` holds address `r`. -/
def updateAt (h : MapHeap) (r : Nat) (lo : LogOrigin) : MapHeap :=
  MapHeap.write h r (LogCounter.update { data := MapHeap.read h r } lo).data

/-- The method `LogCounter.Dump` on a counter whose field `data` holds address `r`: the
heap afterwards and the address of the map returned. -/
def DumpAt (h : MapHeap) (r : Nat) : MapHeap × Nat :=
  let a := MapHeap.make h
  ((MapHeap.read h r).foldl
    (fun hh e => MapHeap.write hh a.2 (GoMap.set (MapHeap.read hh a.2) e.1 e.2)) a.1, a.2)

/-- Calls of `update`, one after another, on a counter whose field `data` holds address
`r`. -/
def updateAllAt (h : MapHeap) (r : Nat) : List LogOrigin → MapHeap
  | [] => h
  | o :: os => updateAllAt (updateAt h r o) r os

/-- The function `newLogCounter`. -/
def newLogCounter : LogCounter := { data := [] }

/-- The type `Logger`: `l` holds the calls made on the zap logger so far. -/
structure Logger where
  l : List BackendCall
  pkgs : GoMap GoString Bool
  metrics : Bool
  LogCount : LogCounter
  deriving DecidableEq, Repr

/-- Source file of the zap variant, as the frames of its functions report it. -/
def srcFile : GoString := "logger/zap/logger.go".toList

/-- Frame of `getCallerInfo` while it calls `runtime.Caller` (line 98). -/
def frameGetCallerInfo : Frame :=
  { funcName := "github.com/geyslan/logger-poc/logger/zap.getCallerInfo".toList,
    file := srcFile, line := 98 }

/-- Lines 103 to 109 of `getCallerInfo`: the package computed from the function name.
`none` is the panic of an out-of-range slice expression. -/
def getCallerInfo_pkg (funcName : GoString) : Option GoString :=
  let lastSlash0 := LastIndexByte funcName '/'
  let lastSlash := if lastSlash0 < 0 then 0 else lastSlash0
  match sliceFrom funcName lastSlash with
  | none => none
  | some rest =>
    let firstDot := Index rest ['.'] + lastSlash
    sliceTo funcName firstDot

/-- The function `getCallerInfo`, called with the frames `stk` of its callers. -/
def getCallerInfo (skip : Nat) (stk : List Frame) : Option (GoString × GoString × Int) :=
  match Caller (frameGetCallerInfo :: stk) (skip + 1) with
  | none => none
  | some fr =>
    match getCallerInfo_pkg fr.funcName with
    | none => none
    | some pkg => some (pkg, fr.file, fr.line)

/-- The method `Logger.updateMetrics`. -/
def Logger.updateMetrics (l : Logger) (file : GoString) (line : Int) : Logger :=
  { l with LogCount := l.LogCount.update { File := file, Line := line } }

/-- Frame of `checkEnabledAndUpdateMetrics` while it calls `getCallerInfo` (line 123). -/
def frameCheckEnabled : Frame :=
  { funcName :=
      "github.com/geyslan/logger-poc/logger/zap.(*Logger).checkEnabledAndUpdateMetrics".toList,
    file := srcFile, line := 123 }

/-- The method `Logger.checkEnabledAndUpdateMetrics`. -/
def Logger.checkEnabledAndUpdateMetrics (l : Logger) (stk : List Frame) :
    Option (Logger × Bool) :=
  match getCallerInfo 2 (frameCheckEnabled :: stk) with
  | none => none
  | some (pkg, file, line) =>
    if GoMap.len l.pkgs > 0 ∧ (GoMap.get false l.pkgs pkg).2 = false then some (l, false)
    else if l.metrics then some (l.updateMetrics file line, true)
    else some (l, true)

/-- Frame of a severity method of the zap variant while it calls
`checkEnabledAndUpdateMetrics`. -/
def frameEntry (name : String) (line : Int) : Frame :=
  { funcName := "github.com/geyslan/logger-poc/logger/zap.(*Logger).".toList ++ name.toList,
    file := srcFile, line := line }

/-- Common body of the seven severity methods: the gate, then the call of the back end
method of level `lvl`. -/
def Logger.log (l : Logger) (fr : Frame) (lvl : Level) (stk : List Frame) (msg : GoString)
    (fields : List Field) : Option Logger :=
  match l.checkEnabledAndUpdateMetrics (fr :: stk) with
  | none => none
  | some (l1, false) => some l1
  | some (l1, true) => some { l1 with l := l1.l ++ [{ level := lvl, msg := msg, fields := fields }] }

/-- The method `Logger.Debug`. -/
def Logger.Debug (l : Logger) (stk : List Frame) (msg : GoString) (fields : List Field) :
    Option Logger :=
  l.log (frameEntry "Debug" 140) DebugLevel stk msg fields

/-- The method `Logger.Info`. -/
def Logger.Info (l : Logger) (stk : List Frame) (msg : GoString) (fields : List Field) :
    Option Logger :=
  l.log (frameEntry "Info" 148) InfoLevel stk msg fields

/-- The method `Logger.Warn`. -/
def Logger.Warn (l : Logger) (stk : List Frame) (msg : GoString) (fields : List Field) :
    Option Logger :=
  l.log (frameEntry "Warn" 156) WarnLevel stk msg fields

/-- The method `Logger.Error`. -/
def Logger.Error (l : Logger) (stk : List Frame) (msg : GoString) (fields : List Field) :
    Option Logger :=
  l.log (frameEntry "Error" 164) ErrorLevel stk msg fields

/-- The method `Logger.DPanic`. -/
def Logger.DPanic (l : Logger) (stk : List Frame) (msg : GoString) (fields : List Field) :
    Option Logger :=
  l.log (frameEntry "DPanic" 172) DPanicLevel stk msg fields

/-- The method `Logger.Panic`. -/
def Logger.Panic (l : Logger) (stk : List Frame) (msg : GoString) (fields : List Field) :
    Option Logger :=
  l.log (frameEntry "Panic" 180) PanicLevel stk msg fields

/-- The method `Logger.Fatal`. -/
def Logger.Fatal (l : Logger) (stk : List Frame) (msg : GoString) (fields : List Field) :
    Option Logger :=
  l.log (frameEntry "Fatal" 188) FatalLevel stk msg fields

/-- The function `New`; `w` is the writer, `none` for nil, which panics. -/
def New (w : Option Nat) (lvl : Level) (packages : List GoString) : Option Logger :=
  match w with
  | none => none
  | some _ =>
    let metrics : Bool := decide (lvl = DebugLevel)
    let pkgs : GoMap GoString Bool := packages.foldl (fun m pkg => GoMap.set m pkg true) []
    some { l := [], pkgs := pkgs, metrics := metrics, LogCount := newLogCounter }

/-- The seven severity methods of the zap variant. -/
inductive Method where
  | Debug | Info | Warn | Error | DPanic | Panic | Fatal
  deriving DecidableEq, Repr

/-- One call of a severity method: the method, the frames of its callers, the message
and the fields. -/
structure Call where
  method : Method
  stk : List Frame
  msg : GoString
  fields : List Field
  deriving DecidableEq, Repr

/-- The call `c` made on the logger `l`. -/
def Logger.call (l : Logger) (c : Call) : Option Logger :=
  match c.method with
  | Method.Debug => l.Debug c.stk c.msg c.fields
  | Method.Info => l.Info c.stk c.msg c.fields
  | Method.Warn => l.Warn c.stk c.msg c.fields
  | Method.Error => l.Error c.stk c.msg c.fields
  | Method.DPanic => l.DPanic c.stk c.msg c.fields
  | Method.Panic => l.Panic c.stk c.msg c.fields
  | Method.Fatal => l.Fatal c.stk c.msg c.fields

/-- Calls made one after another on a logger, as long as none panics. -/
def Logger.calls (l : Logger) : List Call → Option Logger
  | [] => some l
  | c :: cs =>
    match l.call c with
    | none => none
    | some l1 => Logger.calls l1 cs

end Zap

/-! ## Sample inputs -/

/-- The call site `l.Debug("debug message 1")` of `cmd/simple/main.go`, line 24. -/
def sampleFrame : Frame :=
  { funcName := "main.generateLogs".toList, file := "cmd/simple/main.go".toList, line := 24 }

/-- The call site `l.Debug(...)` of `outerpackage.Log`, line 12. -/
def sampleOuterFrame : Frame :=
  { funcName := "github.com/geyslan/logger-poc/outerpackage.Log".toList,
    file := "outerpackage/outerpackage.go".toList, line := 12 }

/-- A call site in a function `Log` of a package whose import path is `outerpackage`. -/
def sampleShortOuterFrame : Frame :=
  { funcName := "outerpackage.Log".toList,
    file := "outerpackage/outerpackage.go".toList, line := 12 }

/-- A logger of `logger/logger.go` whose allow-set is `main`. -/
def sampleMainPkgLogger : Base.Logger := Base.Init.ConfigurePkg ["main".toList]

/-- A zap-variant logger at debug level whose allow-set is `main`. -/
def sampleZapMainLogger : Zap.Logger :=
  { l := [], pkgs := [("main".toList, true)], metrics := true, LogCount := Zap.newLogCounter }

/-- A zap-variant logger at debug level with an empty allow-set. -/
def sampleZapOpenLogger : Zap.Logger :=
  { l := [], pkgs := [], metrics := true, LogCount := Zap.newLogCounter }

/-- A zap-variant logger at debug level with an empty allow-set whose counter table
records the call site of `sampleOuterFrame` with the largest `uint32` count. -/
def sampleZapFullLogger : Zap.Logger :=
  { l := [], pkgs := [], metrics := true,
    LogCount := { data := [({ File := "outerpackage/outerpackage.go".toList, Line := 12 },
      4294967295)] } }

/-- Name of a function literal inside the method `fun` of type `empty` of package
`outerpackage`, as `runtime.FuncForPC` reports it. -/
def sampleNestedName : GoString :=
  "github.com/geyslan/logger-poc/outerpackage.empty.fun.func1".toList

/-- The call site `l.Error("error message 1", ...)` of `cmd/simple/main.go`, line 16. -/
def sampleErrorFrame : Frame :=
  { funcName := "main.generateLogs".toList, file := "cmd/simple/main.go".toList, line := 16 }

/-- The origin of `sampleFrame`. -/
def sampleOrigin : LogOrigin := { File := "cmd/simple/main.go".toList, Line := 24 }

/-- Another origin: line 16 of the same file. -/
def sampleOrigin2 : LogOrigin := { File := "cmd/simple/main.go".toList, Line := 16 }

/-- A simple-variant logger at debug level with an empty counter and no back end calls. -/
def sampleDebugLogger : Simple.Logger :=
  { l := [], cfg := { Writer := 2, Level := DebugLevel, Encoder := 0 },
    LogCount := Simple.newLogCounter }

/-- A simple-variant logger at info level with an empty counter and no back end calls. -/
def sampleInfoLogger : Simple.Logger :=
  { l := [], cfg := { Writer := 2, Level := InfoLevel, Encoder := 0 },
    LogCount := Simple.newLogCounter }

/-! ## Properties

### Go maps -/

set_option maxRecDepth 16000

namespace GoMap

variable {κ ν : Type} [DecidableEq κ]

theorem lookup_set_self (m : GoMap κ ν) (k : κ) (v : ν) : lookup (set m k v) k = some v := by
  induction m with
  | nil => simp [set, lookup]
  | cons e m ih =>
    obtain ⟨k1, v1⟩ := e
    by_cases h : k1 = k
    · simp [set, lookup, h]
    · simp [set, lookup, h, ih]

theorem lookup_set_ne (m : GoMap κ ν) (k k2 : κ) (v : ν) (hne : k2 ≠ k) :
    lookup (set m k v) k2 = lookup m k2 := by
  induction m with
  | nil =>
    have h : ¬ k = k2 := fun h => hne h.symm
    simp [set, lookup, h]
  | cons e m ih =>
    obtain ⟨k1, v1⟩ := e
    by_cases h : k1 = k
    · have h2 : ¬ k = k2 := fun h => hne h.symm
      have h3 : ¬ k1 = k2 := fun h4 => h2 (h ▸ h4)
      simp [set, lookup, h, h2, h3]
    · by_cases h5 : k1 = k2
      · subst h5
        simp [set, lookup, h]
      · simp [set, lookup, h, h5, ih]

theorem lookup_eq_none_iff (m : GoMap κ ν) (k : κ) : lookup m k = none ↔ k ∉ keys m := by
  induction m with
  | nil => simp [lookup, keys]
  | cons e m ih =>
    obtain ⟨k1, v1⟩ := e
    by_cases h : k1 = k
    · simp [lookup, keys, h]
    · have h2 : ¬ k = k1 := fun h3 => h h3.symm
      simp only [keys] at ih
      simp [lookup, keys, h, h2, ih]

theorem get_of_lookup_some (z : ν) (m : GoMap κ ν) (k : κ) (v : ν) (h : lookup m k = some v) :
    get z m k = (v, true) := by
  simp [get, h]

theorem get_of_lookup_none (z : ν) (m : GoMap κ ν) (k : κ) (h : lookup m k = none) :
    get z m k = (z, false) := by
  simp [get, h]

theorem lookup_of_mem (m : GoMap κ ν) (k : κ) (v : ν) (hnd : (keys m).Nodup)
    (hmem : (k, v) ∈ m) : lookup m k = some v := by
  induction m with
  | nil => simp at hmem
  | cons e m ih =>
    obtain ⟨k1, v1⟩ := e
    simp only [keys, List.map_cons, List.nodup_cons] at hnd
    rcases List.mem_cons.mp hmem with h | h
    · cases h
      simp [lookup]
    · have hk : k ∈ keys m := List.mem_map.mpr ⟨(k, v), h, rfl⟩
      have hne : ¬ k1 = k := fun h2 => hnd.1 (h2 ▸ hk)
      simp only [lookup, hne, if_false]
      exact ih hnd.2 h

theorem get_snd_iff (z : ν) (m : GoMap κ ν) (k : κ) : (get z m k).2 = true ↔ k ∈ keys m := by
  cases h : lookup m k with
  | none =>
    have h2 := (lookup_eq_none_iff m k).mp h
    simp [get, h, h2]
  | some v =>
    have h2 : k ∈ keys m := by
      by_contra h3
      rw [(lookup_eq_none_iff m k).mpr h3] at h
      cases h
    simp [get, h, h2]

theorem mem_keys_set (m : GoMap κ ν) (k k2 : κ) (v : ν) :
    k2 ∈ keys (set m k v) ↔ k2 = k ∨ k2 ∈ keys m := by
  induction m with
  | nil => simp [set, keys]
  | cons e m ih =>
    obtain ⟨k1, v1⟩ := e
    simp only [keys] at ih
    by_cases h : k1 = k
    · subst h
      simp [set, keys]
    · simp only [set, h, if_false, keys, List.map_cons, List.mem_cons, ih]
      tauto

theorem mem_keys_foldl_set (pkgs : List κ) (v : ν) :
    ∀ (m : GoMap κ ν) (k : κ),
      k ∈ keys (pkgs.foldl (fun m pkg => set m pkg v) m) ↔ k ∈ keys m ∨ k ∈ pkgs := by
  induction pkgs with
  | nil => intro m k; simp
  | cons a pkgs ih =>
    intro m k
    rw [List.foldl_cons, ih, mem_keys_set, List.mem_cons]
    tauto

end GoMap

/-! ### The counter of the simple variant -/

namespace Simple

theorem update_lookup_self (lc : LogCounter) (o : LogOrigin) :
    GoMap.lookup (lc.update o).1.data o = some (((GoMap.get 0 lc.data o).1 + 1) % 2 ^ 32) := by
  simp [LogCounter.update, GoMap.lookup_set_self]

theorem update_lookup_ne (lc : LogCounter) (o o2 : LogOrigin) (hne : o2 ≠ o) :
    GoMap.lookup (lc.update o).1.data o2 = GoMap.lookup lc.data o2 := by
  simp [LogCounter.update, GoMap.lookup_set_ne _ _ _ _ hne]

/-- Claim C1: `update(o)` returns true iff `o` was not a key of the table before, and
afterwards `Lookup(o)` reports 1 if `o` was absent and the previous count plus 1 modulo
`2 ^ 32` otherwise. -/
theorem update_first_and_count (lc : LogCounter) (o : LogOrigin) :
    ((lc.update o).2 = true ↔ o ∉ GoMap.keys lc.data) ∧
    ((lc.update o).1.Lookup o).2 =
      (match GoMap.lookup lc.data o with
        | none => 1
        | some c => (c + 1) % 2 ^ 32, true) := by
  constructor
  · rw [← GoMap.lookup_eq_none_iff]
    cases h : GoMap.lookup lc.data o <;> simp [LogCounter.update, GoMap.get, h]
  · have h1 := update_lookup_self lc o
    cases h : GoMap.lookup lc.data o <;>
      simp [LogCounter.Lookup, GoMap.get, h] at h1 ⊢ <;> simp [h1]

theorem resultsFor_nil (o : LogOrigin) (bs : List Bool) : resultsFor o [] bs = [] := by
  simp [resultsFor]

theorem resultsFor_cons_self (o : LogOrigin) (os : List LogOrigin) (b : Bool)
    (bs : List Bool) : resultsFor o (o :: os) (b :: bs) = b :: resultsFor o os bs := by
  simp [resultsFor]

theorem resultsFor_cons_ne (o o2 : LogOrigin) (os : List LogOrigin) (b : Bool)
    (bs : List Bool) (hne : o2 ≠ o) :
    resultsFor o (o2 :: os) (b :: bs) = resultsFor o os bs := by
  simp [resultsFor, hne]

/-- A run on a table that already records `o` with a count `c` below `2 ^ 32`: no call
for `o` returns true and the count grows by the number of calls, modulo `2 ^ 32`. -/
theorem updateAll_present (o : LogOrigin) (os : List LogOrigin) :
    ∀ (lc : LogCounter) (c : Nat), GoMap.lookup lc.data o = some c → c < 2 ^ 32 →
      resultsFor o os (updateAll lc os).2 = List.replicate (os.count o) false ∧
      GoMap.lookup (updateAll lc os).1.data o = some ((c + os.count o) % 2 ^ 32) := by
  induction os with
  | nil =>
    intro lc c h hc
    simp [updateAll, resultsFor_nil, h, Nat.mod_eq_of_lt hc]
    exact (Nat.mod_eq_of_lt hc).symm
  | cons a os ih =>
    intro lc c h hc
    by_cases ha : a = o
    · subst ha
      have h1 : GoMap.lookup (lc.update a).1.data a = some ((c + 1) % 2 ^ 32) := by
        rw [update_lookup_self, GoMap.get_of_lookup_some 0 _ _ _ h]
      have h2 : (lc.update a).2 = false := by
        simp [LogCounter.update, GoMap.get_of_lookup_some 0 _ _ _ h]
      obtain ⟨r1, r2⟩ := ih (lc.update a).1 _ h1 (Nat.mod_lt _ (by norm_num))
      refine ⟨?_, ?_⟩
      · simp only [updateAll, resultsFor_cons_self, r1, h2, List.count_cons_self,
          List.replicate_succ]
      · simp only [updateAll, r2, List.count_cons_self]
        congr 1
        omega
    · have h1 : GoMap.lookup (lc.update a).1.data o = some c := by
        rw [update_lookup_ne lc a o (fun h3 => ha h3.symm), h]
      obtain ⟨r1, r2⟩ := ih (lc.update a).1 c h1 hc
      have hao : o ≠ a := fun h3 => ha h3.symm
      refine ⟨?_, ?_⟩
      · simp only [updateAll, resultsFor_cons_ne o a os _ _ ha, r1, List.count_cons_of_ne hao]
      · simp only [updateAll, r2, List.count_cons_of_ne hao]

/-- A run on a table without a record for `o` that calls `update(o)` at least once: the
first of these calls returns true, the others false, and the count ends at the number
of calls modulo `2 ^ 32`. -/
theorem updateAll_absent (o : LogOrigin) (os : List LogOrigin) :
    ∀ (lc : LogCounter), GoMap.lookup lc.data o = none → 1 ≤ os.count o →
      resultsFor o os (updateAll lc os).2 = true :: List.replicate (os.count o - 1) false ∧
      GoMap.lookup (updateAll lc os).1.data o = some (os.count o % 2 ^ 32) := by
  induction os with
  | nil => intro lc _ h; simp at h
  | cons a os ih =>
    intro lc h hN
    by_cases ha : a = o
    · subst ha
      have h1 : GoMap.lookup (lc.update a).1.data a = some 1 := by
        rw [update_lookup_self, GoMap.get_of_lookup_none 0 _ _ h]
        rfl
      have h2 : (lc.update a).2 = true := by
        simp [LogCounter.update, GoMap.get_of_lookup_none 0 _ _ h]
      obtain ⟨r1, r2⟩ := updateAll_present a os (lc.update a).1 1 h1 (by norm_num)
      refine ⟨?_, ?_⟩
      · simp only [updateAll, resultsFor_cons_self, r1, h2, List.count_cons_self,
          Nat.add_sub_cancel]
      · simp only [updateAll, r2, List.count_cons_self]
        congr 2
        omega
    · have h1 : GoMap.lookup (lc.update a).1.data o = none := by
        rw [update_lookup_ne lc a o (fun h3 => ha h3.symm), h]
      have hao : o ≠ a := fun h3 => ha h3.symm
      rw [List.count_cons_of_ne hao] at hN
      obtain ⟨r1, r2⟩ := ih (lc.update a).1 h1 hN
      refine ⟨?_, ?_⟩
      · simp only [updateAll, resultsFor_cons_ne o a os _ _ ha, r1, List.count_cons_of_ne hao]
      · simp only [updateAll, r2, List.count_cons_of_ne hao]

/-- Claim C2, as amended: from a table with no record for `o`, after a run of updates in
which `update(o)` is called `N ≥ 1` times, interleaved with updates of other origins, the
first call for `o` returned true, the other `N - 1` returned false, and `Lookup(o)`
reports `(N mod 2 ^ 32, true)`. -/
theorem updateAll_first_seen (lc : LogCounter) (o : LogOrigin) (os : List LogOrigin)
    (habsent : o ∉ GoMap.keys lc.data) (hN : 1 ≤ os.count o) :
    resultsFor o os (updateAll lc os).2 = true :: List.replicate (os.count o - 1) false ∧
    ((updateAll lc os).1.Lookup o).2 = (os.count o % 2 ^ 32, true) := by
  have h := (GoMap.lookup_eq_none_iff lc.data o).mpr habsent
  obtain ⟨r1, r2⟩ := updateAll_absent o os lc h hN
  exact ⟨r1, by simp [LogCounter.Lookup, GoMap.get, r2]⟩

/-- Witness of claim C2: three updates, two of them for the sample origin. -/
theorem updateAll_first_seen_witness :
    resultsFor sampleOrigin [sampleOrigin, sampleOrigin2, sampleOrigin]
        (updateAll newLogCounter [sampleOrigin, sampleOrigin2, sampleOrigin]).2 =
      true :: List.replicate
        ([sampleOrigin, sampleOrigin2, sampleOrigin].count sampleOrigin - 1) false ∧
    ((updateAll newLogCounter [sampleOrigin, sampleOrigin2, sampleOrigin]).1.Lookup
        sampleOrigin).2 =
      ([sampleOrigin, sampleOrigin2, sampleOrigin].count sampleOrigin % 2 ^ 32, true) :=
  updateAll_first_seen newLogCounter sampleOrigin [sampleOrigin, sampleOrigin2, sampleOrigin]
    (by decide) (by decide)

/-- A run of `n ≥ 1` calls of `update` for one origin the table does not record. -/
theorem updateAll_replicate (lc : LogCounter) (o : LogOrigin) (n : Nat)
    (habsent : GoMap.lookup lc.data o = none) (hn : 1 ≤ n) :
    ((updateAll lc (List.replicate n o)).1.Lookup o).2 = (n % 2 ^ 32, true) := by
  have hc : (List.replicate n o).count o = n := List.count_replicate_self _ _
  have h := (updateAll_absent o (List.replicate n o) lc habsent (by rw [hc]; exact hn)).2
  rw [hc] at h
  unfold LogCounter.Lookup GoMap.get
  rw [h]

theorem count_replicate_origin (o : LogOrigin) (n : Nat) :
    (List.replicate n o).count o = n :=
  List.count_replicate_self _ _

/-- Counterexample to claim C2 as stated: from the empty table, after `N = 2 ^ 32` calls
of `update` for one origin, `Lookup` reports the count 0 and not `N`. -/
theorem updateAll_count_wraps :
    sampleOrigin ∉ GoMap.keys newLogCounter.data ∧
    (List.replicate (2 ^ 32) sampleOrigin).count sampleOrigin = 2 ^ 32 ∧
    ((updateAll newLogCounter (List.replicate (2 ^ 32) sampleOrigin)).1.Lookup
      sampleOrigin).2 = (0, true) ∧
    ((updateAll newLogCounter (List.replicate (2 ^ 32) sampleOrigin)).1.Lookup
      sampleOrigin).2 ≠ (2 ^ 32, true) :=
  have h2 := (updateAll_replicate newLogCounter sampleOrigin (2 ^ 32) rfl
    Nat.one_le_two_pow).trans (congrArg (fun n => (n, true)) (Nat.mod_self (2 ^ 32)))
  ⟨List.not_mem_nil _, count_replicate_origin _ _, h2,
    fun h3 => absurd (congrArg Prod.fst (h2.symm.trans h3)) (by norm_num)⟩

/-- Claim C9: `Lookup(o)` leaves the table unchanged, returns `(c, true)` when the table
records `o` with count `c`, and `(0, false)` when it has no record for `o`. -/
theorem Lookup_reads (lc : LogCounter) (o : LogOrigin) :
    (lc.Lookup o).1 = lc ∧
    (∀ c, GoMap.lookup lc.data o = some c → (lc.Lookup o).2 = (c, true)) ∧
    (∀ c, (GoMap.keys lc.data).Nodup → (o, c) ∈ lc.data → (lc.Lookup o).2 = (c, true)) ∧
    (o ∉ GoMap.keys lc.data → (lc.Lookup o).2 = (0, false)) := by
  refine ⟨rfl, ?_, ?_, ?_⟩
  · intro c h
    exact GoMap.get_of_lookup_some 0 _ _ _ h
  · intro c hnd hmem
    exact GoMap.get_of_lookup_some 0 _ _ _ (GoMap.lookup_of_mem _ _ _ hnd hmem)
  · intro h
    exact GoMap.get_of_lookup_none 0 _ _ ((GoMap.lookup_eq_none_iff _ _).mpr h)

/-- Witness of claim C9: a table that records the sample origin three times, read at that
origin and at another one. -/
theorem Lookup_reads_witness :
    (LogCounter.Lookup { data := [(sampleOrigin, 3)] } sampleOrigin).2 = (3, true) ∧
    (LogCounter.Lookup { data := [(sampleOrigin, 3)] } sampleOrigin2).2 = (0, false) :=
  ⟨(Lookup_reads { data := [(sampleOrigin, 3)] } sampleOrigin).2.2.1 3 (by decide) (by decide),
   (Lookup_reads { data := [(sampleOrigin, 3)] } sampleOrigin2).2.2.2 (by decide)⟩

end Simple

/-! ### Lookup of an origin that was never recorded -/

/-- Counterexample to claim C10 as stated: on the empty table of the zap variant `Lookup`
returns a non-nil error. -/
theorem zap_absent_origin_gives_error :
    (Zap.newLogCounter.Lookup sampleOrigin).2 =
      (0, some (Zap.GoError.keyNotFound sampleOrigin)) ∧
    (Zap.newLogCounter.Lookup sampleOrigin).2.2 ≠ none := by
  decide

/-- Claim C10, as amended: on an origin the table does not record, `Lookup` of the simple
variant returns `(0, false)` and `Lookup` of the zap variant returns the count 0 with the
error "LogCount key not found"; both return and leave the table unchanged. -/
theorem Lookup_miss (o : LogOrigin) :
    (∀ lc : Simple.LogCounter, o ∉ GoMap.keys lc.data → lc.Lookup o = (lc, 0, false)) ∧
    (∀ lc : Zap.LogCounter, o ∉ GoMap.keys lc.data →
      lc.Lookup o = (lc, 0, some (Zap.GoError.keyNotFound o))) := by
  constructor
  · intro lc h
    simp [Simple.LogCounter.Lookup,
      GoMap.get_of_lookup_none 0 _ _ ((GoMap.lookup_eq_none_iff _ _).mpr h)]
  · intro lc h
    simp [Zap.LogCounter.Lookup,
      GoMap.get_of_lookup_none 0 _ _ ((GoMap.lookup_eq_none_iff _ _).mpr h)]

/-- Witness of claim C10: the tables returned by `newLogCounter`. -/
theorem Lookup_miss_witness :
    Simple.newLogCounter.Lookup sampleOrigin = (Simple.newLogCounter, 0, false) ∧
    Zap.newLogCounter.Lookup sampleOrigin =
      (Zap.newLogCounter, 0, some (Zap.GoError.keyNotFound sampleOrigin)) :=
  ⟨(Lookup_miss sampleOrigin).1 Simple.newLogCounter (by decide),
   (Lookup_miss sampleOrigin).2 Zap.newLogCounter (by decide)⟩

/-! ### The gates -/

/-- Claim C5: with the mask `M` configured by `ConfigureMod`, `isModuleSet(f)` is true iff
`M = 0` or `f & M ≠ 0`; hence for a non-zero `M` it is true iff `f & M ≠ 0`, and with
`M = 0b10` it is true for `f = 0b11` and false for `f = 0b01`. -/
theorem isModuleSet_iff (l : Base.Logger) (M f : Nat) :
    ((l.ConfigureMod M).isModuleSet f = true ↔ (M = 0 ∨ f &&& M ≠ 0)) ∧
    (M ≠ 0 → ((l.ConfigureMod M).isModuleSet f = true ↔ f &&& M ≠ 0)) ∧
    (l.ConfigureMod 0b10).isModuleSet 0b11 = true ∧
    (l.ConfigureMod 0b10).isModuleSet 0b01 = false := by
  have key : (l.ConfigureMod M).isModuleSet f = true ↔ (M = 0 ∨ f &&& M ≠ 0) := by
    by_cases hM : M = 0
    · simp [Base.Logger.isModuleSet, Base.Logger.ConfigureMod, hM]
    · simp [Base.Logger.isModuleSet, Base.Logger.ConfigureMod, hM, Nat.land_comm M f]
  refine ⟨key, ?_, ?_, ?_⟩
  · intro hM
    rw [key]
    constructor
    · rintro (h | h)
      · exact absurd h hM
      · exact h
    · exact Or.inr
  · simp [Base.Logger.isModuleSet, Base.Logger.ConfigureMod]
  · simp [Base.Logger.isModuleSet, Base.Logger.ConfigureMod]

/-- Witness of claim C5: the mask `0b10` and the flag `0b11`. -/
theorem isModuleSet_iff_witness :
    ((Base.Init.ConfigureMod 0b10).isModuleSet 0b11 = true ↔ 0b11 &&& 0b10 ≠ 0) :=
  (isModuleSet_iff Base.Init 0b10 0b11).2.1 (by decide)

/-- In `checkEnabledAndUpdateMetrics` of the zap variant the resolver reads frame 1 of the
stack the method was called with: the caller of the severity method. -/
theorem zap_getCallerInfo_check (e f : Frame) (rest : List Frame) :
    Zap.getCallerInfo 2 (Zap.frameCheckEnabled :: e :: f :: rest) =
      (Zap.getCallerInfo_pkg f.funcName).map (fun pkg => (pkg, f.file, f.line)) := by
  simp only [Zap.getCallerInfo, Caller, List.get?]
  cases Zap.getCallerInfo_pkg f.funcName <;> rfl

/-- The gate of the zap variant on a non-empty allow-set. -/
theorem zap_check_nonempty (l : Zap.Logger) (stk : List Frame) (pkg file : GoString)
    (line : Int) (hS : l.pkgs ≠ [])
    (hres : Zap.getCallerInfo 2 (Zap.frameCheckEnabled :: stk) = some (pkg, file, line)) :
    l.checkEnabledAndUpdateMetrics stk =
      if pkg ∈ GoMap.keys l.pkgs then
        some (if l.metrics then l.updateMetrics file line else l, true)
      else some (l, false) := by
  have hlen : 0 < GoMap.len l.pkgs := List.length_pos.mpr hS
  by_cases hp : pkg ∈ GoMap.keys l.pkgs
  · have h := (GoMap.get_snd_iff false l.pkgs pkg).mpr hp
    cases hm : l.metrics <;>
      simp [Zap.Logger.checkEnabledAndUpdateMetrics, hres, hp, h, hm]
  · have h : (GoMap.get false l.pkgs pkg).2 = false := by
      cases h2 : (GoMap.get false l.pkgs pkg).2
      · rfl
      · exact absurd ((GoMap.get_snd_iff false l.pkgs pkg).mp h2) hp
    simp [Zap.Logger.checkEnabledAndUpdateMetrics, hres, hp, h, hlen]

/-- Claim C6: on a non-empty allow-set the package gate of `logger.go` (`isPackageSet`)
and of the zap variant (`checkEnabledAndUpdateMetrics`) lets the call through iff the
resolved identity is a key of the set; `ConfigurePkg` and `New` put exactly the given
names into the set; with the set `main` a caller in `main` passes and a caller in
`outerpackage` does not. -/
theorem package_gate_iff :
    (∀ (l : Base.Logger) (stk : List Frame) (p : GoString), l.pkgs ≠ [] →
      Base.getCallerPackage 2 (Base.frameIsPackageSet :: stk) = some p →
      l.isPackageSet stk = some (decide (p ∈ GoMap.keys l.pkgs))) ∧
    (∀ (l : Base.Logger) (pkgs : List GoString) (k : GoString),
      k ∈ GoMap.keys (l.ConfigurePkg pkgs).pkgs ↔ k ∈ GoMap.keys l.pkgs ∨ k ∈ pkgs) ∧
    (∀ (l : Zap.Logger) (stk : List Frame) (pkg file : GoString) (line : Int), l.pkgs ≠ [] →
      Zap.getCallerInfo 2 (Zap.frameCheckEnabled :: stk) = some (pkg, file, line) →
      (l.checkEnabledAndUpdateMetrics stk).map Prod.snd =
        some (decide (pkg ∈ GoMap.keys l.pkgs))) ∧
    (∀ (w : Nat) (lvl : Level) (packages : List GoString), ∃ l : Zap.Logger,
      Zap.New (some w) lvl packages = some l ∧
      ∀ k : GoString, k ∈ GoMap.keys l.pkgs ↔ k ∈ packages) ∧
    sampleMainPkgLogger.isPackageSet [Base.frameWarnfPkg, sampleFrame] = some true ∧
    sampleMainPkgLogger.isPackageSet [Base.frameWarnfPkg, sampleShortOuterFrame] =
      some false ∧
    (sampleZapMainLogger.checkEnabledAndUpdateMetrics
      [Zap.frameEntry "Debug" 140, sampleFrame]).map Prod.snd = some true ∧
    (sampleZapMainLogger.checkEnabledAndUpdateMetrics
      [Zap.frameEntry "Debug" 140, sampleShortOuterFrame]).map Prod.snd = some false := by
  refine ⟨?_, ?_, ?_, ?_, by decide, by decide, by decide, by decide⟩
  · intro l stk p hS hres
    have hlen : GoMap.len l.pkgs ≠ 0 := fun h => hS (List.length_eq_zero.mp h)
    simp only [Base.Logger.isPackageSet, hlen, if_false, hres]
    congr 1
    by_cases hp : p ∈ GoMap.keys l.pkgs
    · simp [hp, (GoMap.get_snd_iff false l.pkgs p).mpr hp]
    · cases h2 : (GoMap.get false l.pkgs p).2
      · simp [hp]
      · exact absurd ((GoMap.get_snd_iff false l.pkgs p).mp h2) hp
  · intro l pkgs k
    by_cases hl : pkgs.length > 0
    · simp only [Base.Logger.ConfigurePkg, hl, if_true]
      exact GoMap.mem_keys_foldl_set pkgs true l.pkgs k
    · have : pkgs = [] := List.length_eq_zero.mp (by omega)
      simp [Base.Logger.ConfigurePkg, this]
  · intro l stk pkg file line hS hres
    rw [zap_check_nonempty l stk pkg file line hS hres]
    by_cases hp : pkg ∈ GoMap.keys l.pkgs <;> simp [hp]
  · intro w lvl packages
    refine ⟨_, rfl, ?_⟩
    intro k
    have h := GoMap.mem_keys_foldl_set packages true ([] : GoMap GoString Bool) k
    simpa [GoMap.keys] using h

/-- Witness of claim C6: the allow-set `main` and a call from `outerpackage.Log`. -/
theorem package_gate_iff_witness :
    sampleMainPkgLogger.isPackageSet [Base.frameWarnfPkg, sampleShortOuterFrame] =
      some (decide ("outerpackage".toList ∈ GoMap.keys sampleMainPkgLogger.pkgs)) ∧
    (sampleZapMainLogger.checkEnabledAndUpdateMetrics
      [Zap.frameEntry "Debug" 140, sampleShortOuterFrame]).map Prod.snd =
      some (decide ("outerpackage".toList ∈ GoMap.keys sampleZapMainLogger.pkgs)) :=
  ⟨package_gate_iff.1 sampleMainPkgLogger [Base.frameWarnfPkg, sampleShortOuterFrame]
      "outerpackage".toList (by decide) (by decide),
   package_gate_iff.2.2.1 sampleZapMainLogger [Zap.frameEntry "Debug" 140, sampleShortOuterFrame]
      "outerpackage".toList "outerpackage/outerpackage.go".toList 12 (by decide) (by decide)⟩

/-- Claim C7: a logger with an empty allow-set and a zero mask, such as `Init()` returns
and as `New` of the zap variant builds without package names, lets every call through:
`isModuleSet` is true for every flag, `isPackageSet` returns true on every stack, and
`checkEnabledAndUpdateMetrics` returns true for every resolved caller. -/
theorem open_gate_admits_all :
    (Base.Init.pkgs = [] ∧ Base.Init.modules = 0) ∧
    (∀ l : Base.Logger, l.pkgs = [] → l.modules = 0 →
      (∀ f : Nat, l.isModuleSet f = true) ∧
      (∀ stk : List Frame, l.isPackageSet stk = some true)) ∧
    (∀ (w : Nat) (lvl : Level), ∃ l : Zap.Logger,
      Zap.New (some w) lvl [] = some l ∧ l.pkgs = []) ∧
    (∀ (l : Zap.Logger) (stk : List Frame) (pkg file : GoString) (line : Int), l.pkgs = [] →
      Zap.getCallerInfo 2 (Zap.frameCheckEnabled :: stk) = some (pkg, file, line) →
      (l.checkEnabledAndUpdateMetrics stk).map Prod.snd = some true) := by
  refine ⟨⟨rfl, rfl⟩, ?_, ?_, ?_⟩
  · intro l hp hm
    constructor
    · intro f
      simp [Base.Logger.isModuleSet, hm]
    · intro stk
      simp [Base.Logger.isPackageSet, hp, GoMap.len]
  · intro w lvl
    exact ⟨_, rfl, rfl⟩
  · intro l stk pkg file line hp hres
    cases hm : l.metrics <;>
      simp [Zap.Logger.checkEnabledAndUpdateMetrics, hres, hp, hm, GoMap.len]

/-- Witness of claim C7: `Init()` on the empty stack and a zap logger without package
names called from `outerpackage.Log`. -/
theorem open_gate_admits_all_witness :
    ((∀ f : Nat, Base.Init.isModuleSet f = true) ∧
      (∀ stk : List Frame, Base.Init.isPackageSet stk = some true)) ∧
    (sampleZapOpenLogger.checkEnabledAndUpdateMetrics
      [Zap.frameEntry "Debug" 140, sampleOuterFrame]).map Prod.snd = some true :=
  ⟨open_gate_admits_all.2.1 Base.Init rfl rfl,
   open_gate_admits_all.2.2.2 sampleZapOpenLogger [Zap.frameEntry "Debug" 140, sampleOuterFrame]
     "github.com/geyslan/logger-poc/outerpackage".toList
     "outerpackage/outerpackage.go".toList 12 rfl (by decide)⟩

/-- A severity method of the zap variant whose caller is not in the non-empty allow-set
returns the logger as it was. -/
theorem zap_log_gated (l : Zap.Logger) (e f : Frame) (rest : List Frame) (lvl : Level)
    (msg : GoString) (fields : List Field) (pkg : GoString) (hS : l.pkgs ≠ [])
    (hres : Zap.getCallerInfo_pkg f.funcName = some pkg) (hp : pkg ∉ GoMap.keys l.pkgs) :
    l.log e lvl (f :: rest) msg fields = some l := by
  have h1 : Zap.getCallerInfo 2 (Zap.frameCheckEnabled :: e :: f :: rest) =
      some (pkg, f.file, f.line) := by
    rw [zap_getCallerInfo_check, hres]
    rfl
  have h2 := zap_check_nonempty l (e :: f :: rest) pkg f.file f.line hS h1
  simp only [hp, if_false] at h2
  simp [Zap.Logger.log, h2]

/-- Claim C4: a call the gate turns away leaves the logger unchanged, counter table and
back end included.  Simple variant: `debug`, `Debug` and `Logger.Debug` on a logger whose
level is above `DebugLevel`.  Zap variant: each of the seven severity methods when the
allow-set is non-empty and the resolved package of the caller is not in it. -/
theorem gated_out_call_is_noop :
    (∀ (l : Simple.Logger) (skip : Nat) (stk : List Frame) (msg : GoString)
      (fields : List Field), l.cfg.Level > DebugLevel →
      Simple.debug skip l stk msg fields = some l ∧
      Simple.Debug l stk msg fields = some l ∧
      l.Debug stk msg fields = some l) ∧
    (∀ (l : Zap.Logger) (f : Frame) (rest : List Frame) (msg : GoString)
      (fields : List Field) (pkg : GoString), l.pkgs ≠ [] →
      Zap.getCallerInfo_pkg f.funcName = some pkg → pkg ∉ GoMap.keys l.pkgs →
      l.Debug (f :: rest) msg fields = some l ∧
      l.Info (f :: rest) msg fields = some l ∧
      l.Warn (f :: rest) msg fields = some l ∧
      l.Error (f :: rest) msg fields = some l ∧
      l.DPanic (f :: rest) msg fields = some l ∧
      l.Panic (f :: rest) msg fields = some l ∧
      l.Fatal (f :: rest) msg fields = some l) := by
  constructor
  · intro l skip stk msg fields hlvl
    simp [Simple.debug, Simple.Debug, Simple.Logger.Debug, hlvl]
  · intro l f rest msg fields pkg hS hres hp
    exact ⟨zap_log_gated l _ f rest _ msg fields pkg hS hres hp,
      zap_log_gated l _ f rest _ msg fields pkg hS hres hp,
      zap_log_gated l _ f rest _ msg fields pkg hS hres hp,
      zap_log_gated l _ f rest _ msg fields pkg hS hres hp,
      zap_log_gated l _ f rest _ msg fields pkg hS hres hp,
      zap_log_gated l _ f rest _ msg fields pkg hS hres hp,
      zap_log_gated l _ f rest _ msg fields pkg hS hres hp⟩

/-- Witness of claim C4: `Debug` on an info-level logger of the simple variant, and `Warn`
from `outerpackage.Log` on a zap logger whose allow-set is `main`. -/
theorem gated_out_call_is_noop_witness :
    sampleInfoLogger.Debug [sampleFrame] "debug message 1".toList [] =
      some sampleInfoLogger ∧
    sampleZapMainLogger.Warn [sampleOuterFrame] "warn message 1".toList [] =
      some sampleZapMainLogger :=
  ⟨(gated_out_call_is_noop.1 sampleInfoLogger 1 [sampleFrame] "debug message 1".toList []
      (by decide)).2.2,
   (gated_out_call_is_noop.2 sampleZapMainLogger sampleOuterFrame [] "warn message 1".toList []
      "github.com/geyslan/logger-poc/outerpackage".toList (by decide) (by decide)
      (by decide)).2.2.1⟩

/-! ### First occurrence and emission in the simple variant -/

/-- Through a public entry point of the simple variant the resolver reads frame 0 of the
stack the entry point was called with: its caller. -/
theorem simple_getCallerInfo_entry (h e f : Frame) (rest : List Frame) :
    Simple.getCallerInfo 2 (h :: e :: f :: rest) =
      (Simple.getCallerInfo_pkg f.funcName).map (fun pkg => (pkg, f.file, f.line)) := by
  simp only [Simple.getCallerInfo, Caller, List.get?]
  cases Simple.getCallerInfo_pkg f.funcName <;> rfl

theorem simple_debug_step (l : Simple.Logger) (skip : Nat) (stk : List Frame)
    (msg : GoString) (fields : List Field) (pkg file : GoString) (line : Int)
    (hlvl : ¬ l.cfg.Level > DebugLevel)
    (hres : Simple.getCallerInfo (skip + 1) (Simple.frameDebugHelper :: stk) =
      some (pkg, file, line)) :
    Simple.debug skip l stk msg fields =
      some (Simple.afterCall l DebugLevel file line msg fields) := by
  simp only [Simple.debug, hlvl, if_false, hres, Simple.Logger.updateCounter,
    Simple.afterCall, Simple.Logger.emit]
  cases (l.LogCount.update { File := file, Line := line }).2 <;> simp

theorem simple_err_step (l : Simple.Logger) (skip : Nat) (stk : List Frame)
    (msg : GoString) (fields : List Field) (pkg file : GoString) (line : Int)
    (hres : Simple.getCallerInfo (skip + 1) (Simple.frameErrHelper :: stk) =
      some (pkg, file, line)) :
    Simple.err skip l stk msg fields =
      some (Simple.afterCall l ErrorLevel file line msg fields) := by
  simp only [Simple.err, hres, Simple.Logger.updateCounter,
    Simple.afterCall, Simple.Logger.emit]
  cases (l.LogCount.update { File := file, Line := line }).2 <;> simp

theorem simple_fatal_step (l : Simple.Logger) (skip : Nat) (stk : List Frame)
    (msg : GoString) (fields : List Field) (pkg file : GoString) (line : Int)
    (hres : Simple.getCallerInfo (skip + 1) (Simple.frameFatalHelper :: stk) =
      some (pkg, file, line)) :
    Simple.fatal skip l stk msg fields =
      some (Simple.afterCall l FatalLevel file line msg fields) := by
  simp only [Simple.fatal, hres, Simple.Logger.updateCounter,
    Simple.afterCall, Simple.Logger.emit]
  cases (l.LogCount.update { File := file, Line := line }).2 <;> simp

theorem simple_Debug_step (l : Simple.Logger) (f : Frame) (rest : List Frame)
    (msg : GoString) (fields : List Field) (pkg : GoString)
    (hlvl : ¬ l.cfg.Level > DebugLevel)
    (hres : Simple.getCallerInfo_pkg f.funcName = some pkg) :
    l.Debug (f :: rest) msg fields =
      some (Simple.afterCall l DebugLevel f.file f.line msg fields) := by
  apply simple_debug_step l 1 _ msg fields pkg
  · exact hlvl
  · show Simple.getCallerInfo 2 _ = _
    rw [simple_getCallerInfo_entry, hres]
    rfl

/-- Claim C3: a call of `debug` (on a logger whose level is not above `DebugLevel`), `err`
or `fatal` whose caller is resolved to `(file, line)` updates the counter for that origin
and calls the back end iff that update returned true.  Three `Debug` calls from one
call site on a fresh debug-level logger reach the back end once, with the first
message, and leave the count of the origin at 3. -/
theorem dedup_emission :
    (∀ (l : Simple.Logger) (skip : Nat) (stk : List Frame) (msg : GoString)
      (fields : List Field) (pkg file : GoString) (line : Int),
      ¬ l.cfg.Level > DebugLevel →
      Simple.getCallerInfo (skip + 1) (Simple.frameDebugHelper :: stk) =
        some (pkg, file, line) →
      ∃ l2 : Simple.Logger, Simple.debug skip l stk msg fields = some l2 ∧
        l2.cfg = l.cfg ∧
        l2.LogCount = (l.LogCount.update { File := file, Line := line }).1 ∧
        l2.l = l.l ++ (if (l.LogCount.update { File := file, Line := line }).2
          then [{ level := DebugLevel, msg := msg, fields := fields }] else [])) ∧
    (∀ (l : Simple.Logger) (skip : Nat) (stk : List Frame) (msg : GoString)
      (fields : List Field) (pkg file : GoString) (line : Int),
      Simple.getCallerInfo (skip + 1) (Simple.frameErrHelper :: stk) =
        some (pkg, file, line) →
      ∃ l2 : Simple.Logger, Simple.err skip l stk msg fields = some l2 ∧
        l2.cfg = l.cfg ∧
        l2.LogCount = (l.LogCount.update { File := file, Line := line }).1 ∧
        l2.l = l.l ++ (if (l.LogCount.update { File := file, Line := line }).2
          then [{ level := ErrorLevel, msg := msg, fields := fields }] else [])) ∧
    (∀ (l : Simple.Logger) (skip : Nat) (stk : List Frame) (msg : GoString)
      (fields : List Field) (pkg file : GoString) (line : Int),
      Simple.getCallerInfo (skip + 1) (Simple.frameFatalHelper :: stk) =
        some (pkg, file, line) →
      ∃ l2 : Simple.Logger, Simple.fatal skip l stk msg fields = some l2 ∧
        l2.cfg = l.cfg ∧
        l2.LogCount = (l.LogCount.update { File := file, Line := line }).1 ∧
        l2.l = l.l ++ (if (l.LogCount.update { File := file, Line := line }).2
          then [{ level := FatalLevel, msg := msg, fields := fields }] else [])) ∧
    (∀ (cfg : Simple.LoggerConfig) (f : Frame) (rest : List Frame)
      (pkg m1 m2 m3 : GoString) (fs1 fs2 fs3 : List Field), cfg.Level = DebugLevel →
      Simple.getCallerInfo_pkg f.funcName = some pkg →
      (((Simple.NewLogger (some cfg)).bind (fun l0 => l0.Debug (f :: rest) m1 fs1)).bind
          (fun l1 => l1.Debug (f :: rest) m2 fs2)).bind
          (fun l2 => l2.Debug (f :: rest) m3 fs3) =
        some { l := [{ level := DebugLevel, msg := m1, fields := fs1 }], cfg := cfg,
               LogCount := { data := [({ File := f.file, Line := f.line }, 3)] } } ∧
      (Simple.LogCounter.Lookup { data := [({ File := f.file, Line := f.line }, 3)] }
        { File := f.file, Line := f.line }).2 = (3, true)) := by
  refine ⟨?_, ?_, ?_, ?_⟩
  · intro l skip stk msg fields pkg file line hlvl hres
    exact ⟨_, simple_debug_step l skip stk msg fields pkg file line hlvl hres, rfl, rfl, rfl⟩
  · intro l skip stk msg fields pkg file line hres
    exact ⟨_, simple_err_step l skip stk msg fields pkg file line hres, rfl, rfl, rfl⟩
  · intro l skip stk msg fields pkg file line hres
    exact ⟨_, simple_fatal_step l skip stk msg fields pkg file line hres, rfl, rfl, rfl⟩
  · intro cfg f rest pkg m1 m2 m3 fs1 fs2 fs3 hlvl hres
    have h0 : ¬ cfg.Level > DebugLevel := by rw [hlvl]; decide
    constructor
    · rw [Simple.NewLogger, Option.some_bind,
        simple_Debug_step _ f rest m1 fs1 pkg h0 hres, Option.some_bind,
        simple_Debug_step _ f rest m2 fs2 pkg h0 hres, Option.some_bind,
        simple_Debug_step _ f rest m3 fs3 pkg h0 hres]
      simp [Simple.afterCall, Simple.LogCounter.update, Simple.newLogCounter, GoMap.get,
        GoMap.lookup, GoMap.set]
    · simp [GoMap.get, GoMap.lookup, Simple.LogCounter.Lookup]

/-- Witness of claim C3: the three `Debug` calls of `generateLogs` taken as one call site,
on a debug-level logger. -/
theorem dedup_emission_witness :
    (((Simple.NewLogger (some sampleDebugLogger.cfg)).bind
          (fun l0 => l0.Debug [sampleFrame] "debug message 1".toList [])).bind
          (fun l1 => l1.Debug [sampleFrame] "debug message 2".toList [])).bind
          (fun l2 => l2.Debug [sampleFrame] "debug message 3".toList []) =
        some { l := [{ level := DebugLevel, msg := "debug message 1".toList, fields := [] }],
               cfg := sampleDebugLogger.cfg,
               LogCount := { data := [({ File := sampleFrame.file,
                                         Line := sampleFrame.line }, 3)] } } ∧
      (Simple.LogCounter.Lookup
        { data := [({ File := sampleFrame.file, Line := sampleFrame.line }, 3)] }
        { File := sampleFrame.file, Line := sampleFrame.line }).2 = (3, true) :=
  dedup_emission.2.2.2 sampleDebugLogger.cfg sampleFrame [] "main".toList
    "debug message 1".toList "debug message 2".toList "debug message 3".toList [] [] []
    (by decide) (by decide)

/-! ### Package name of a nested function in the simple variant -/

/-- Claim C8, the code at the failing input: for a function literal inside a method,
`getCallerInfo` of the simple variant computes `outerpackage.empty` and not the package
name `outerpackage`, which it does compute for the function `Log` and for the method
`empty.fun` of that package. -/
theorem getCallerInfo_pkg_nested :
    Simple.getCallerInfo_pkg sampleNestedName = some "outerpackage.empty".toList ∧
    Simple.getCallerInfo_pkg sampleNestedName ≠ some "outerpackage".toList ∧
    Simple.getCallerInfo 2
        [Simple.frameDebugHelper, Simple.frameEntry "Debug" 203,
          { funcName := sampleNestedName, file := "outerpackage/outerpackage.go".toList,
            line := 8 }] =
      some ("outerpackage.empty".toList, "outerpackage/outerpackage.go".toList, 8) ∧
    Simple.getCallerInfo_pkg "github.com/geyslan/logger-poc/outerpackage.Log".toList =
      some "outerpackage".toList ∧
    Simple.getCallerInfo_pkg "github.com/geyslan/logger-poc/outerpackage.empty.fun".toList =
      some "outerpackage".toList ∧
    Zap.getCallerInfo_pkg sampleNestedName =
      some "github.com/geyslan/logger-poc/outerpackage".toList := by
  decide

/-! ### Copies of a map and the heap of map objects -/

namespace GoMap
variable {κ ν : Type} [DecidableEq κ]

theorem set_of_not_mem (m : GoMap κ ν) (k : κ) (v : ν) (h : k ∉ keys m) :
    set m k v = m ++ [(k, v)] := by
  induction m with
  | nil => rfl
  | cons e m ih =>
    obtain ⟨k1, v1⟩ := e
    simp only [keys, List.map_cons, List.mem_cons, not_or] at h
    have hne : ¬ k1 = k := fun h2 => h.1 h2.symm
    simp only [set, hne, if_false, List.cons_append]
    rw [ih h.2]

theorem foldl_set_of_nodup (es : GoMap κ ν) :
    ∀ acc : GoMap κ ν, (keys (acc ++ es)).Nodup →
      es.foldl (fun dump e => set dump e.1 e.2) acc = acc ++ es := by
  induction es with
  | nil => intro acc _; simp
  | cons e es ih =>
    intro acc hnd
    have hk : e.1 ∉ keys acc := by
      simp only [keys, List.map_append, List.map_cons] at hnd
      have h1 := (List.nodup_append.mp hnd).2.2
      intro h2
      exact h1 h2 (List.mem_cons_self _ _)
    rw [List.foldl_cons, set_of_not_mem acc e.1 e.2 hk, ih]
    · simp
    · simpa using hnd

theorem nodup_keys_set (m : GoMap κ ν) (k : κ) (v : ν) (h : (keys m).Nodup) :
    (keys (set m k v)).Nodup := by
  induction m with
  | nil => simp [set, keys]
  | cons e m ih =>
    obtain ⟨k1, v1⟩ := e
    simp only [keys, List.map_cons, List.nodup_cons] at h
    by_cases hk : k1 = k
    · subst hk
      simp only [set, if_true, keys, List.map_cons, List.nodup_cons]
      exact h
    · simp only [set, hk, if_false, keys, List.map_cons, List.nodup_cons]
      refine ⟨?_, ih h.2⟩
      intro h2
      rcases (mem_keys_set m k k1 v).mp h2 with h3 | h3
      · exact hk h3
      · exact h.1 h3

end GoMap

namespace MapHeap

theorem length_write (h : MapHeap) (r : Nat) (m : GoMap LogOrigin Nat) :
    (write h r m).length = h.length := by
  simp [write]

theorem read_write_same (h : MapHeap) (r : Nat) (m : GoMap LogOrigin Nat)
    (hr : r < h.length) : read (write h r m) r = m := by
  simp [read, write, List.getD_eq_getElem?_getD, List.getElem?_set, hr]

theorem read_write_ne (h : MapHeap) (r r2 : Nat) (m : GoMap LogOrigin Nat)
    (hne : r ≠ r2) : read (write h r m) r2 = read h r2 := by
  simp [read, write, List.getD_eq_getElem?_getD, List.getElem?_set, hne]

theorem write_write (h : MapHeap) (r : Nat) (m m2 : GoMap LogOrigin Nat) :
    write (write h r m) r m2 = write h r m2 := by
  simp [write]

theorem write_read (h : MapHeap) (r : Nat) (hr : r < h.length) :
    write h r (read h r) = h := by
  apply List.ext_getElem
  · simp [write]
  · intro n h1 h2
    by_cases hn : r = n
    · subst hn
      simp [write, read, List.getD_eq_getElem?_getD, List.getElem?_eq_getElem hr]
    · simp [write, List.getElem_set, hn]

theorem foldl_write (d : Nat) (es : GoMap LogOrigin Nat) :
    ∀ hh : MapHeap, d < hh.length →
      es.foldl (fun hh e => write hh d (GoMap.set (read hh d) e.1 e.2)) hh =
        write hh d (es.foldl (fun dump e => GoMap.set dump e.1 e.2) (read hh d)) := by
  induction es with
  | nil => intro hh hd; simp [write_read hh d hd]
  | cons e es ih =>
    intro hh hd
    rw [List.foldl_cons, ih _ (by rw [length_write]; exact hd), write_write,
      read_write_same _ _ _ hd, List.foldl_cons]

end MapHeap

theorem read_append_left (h : MapHeap) (x : GoMap LogOrigin Nat) (r : Nat)
    (hr : r < h.length) : MapHeap.read (h ++ [x]) r = MapHeap.read h r := by
  simp [MapHeap.read, List.getD_eq_getElem?_getD, List.getElem?_append_left hr]

theorem read_append_new (h : MapHeap) (x : GoMap LogOrigin Nat) :
    MapHeap.read (h ++ [x]) h.length = x := by
  simp [MapHeap.read, List.getD_eq_getElem?_getD]

/-- The heap after `Dump` of the simple variant: one more map object, which holds the
copy. -/
theorem simple_DumpAt_eq (h : MapHeap) (r : Nat) :
    Simple.DumpAt h r =
      (MapHeap.write (h ++ [[]]) h.length
        (Simple.LogCounter.Dump { data := MapHeap.read h r }).2, h.length) := by
  simp only [Simple.DumpAt, MapHeap.make, Simple.LogCounter.Dump]
  rw [MapHeap.foldl_write h.length _ _ (by simp), read_append_new]

/-- The heap after `Dump` of the zap variant: one more map object, which holds the
copy. -/
theorem zap_DumpAt_eq (h : MapHeap) (r : Nat) :
    Zap.DumpAt h r =
      (MapHeap.write (h ++ [[]]) h.length
        (Zap.LogCounter.Dump { data := MapHeap.read h r }).2, h.length) := by
  simp only [Zap.DumpAt, MapHeap.make, Zap.LogCounter.Dump]
  rw [MapHeap.foldl_write h.length _ _ (by simp), read_append_new]

theorem simple_updateAllAt_read_ne (r d : Nat) (hne : r ≠ d) (os : List LogOrigin) :
    ∀ h : MapHeap, MapHeap.read (Simple.updateAllAt h r os) d = MapHeap.read h d := by
  induction os with
  | nil => intro h; rfl
  | cons o os ih =>
    intro h
    rw [Simple.updateAllAt, ih]
    exact MapHeap.read_write_ne h r d _ hne

theorem zap_updateAllAt_read_ne (r d : Nat) (hne : r ≠ d) (os : List LogOrigin) :
    ∀ h : MapHeap, MapHeap.read (Zap.updateAllAt h r os) d = MapHeap.read h d := by
  induction os with
  | nil => intro h; rfl
  | cons o os ih =>
    intro h
    rw [Zap.updateAllAt, ih]
    exact MapHeap.read_write_ne h r d _ hne

theorem dump_heap_facts (h : MapHeap) (r : Nat) (x : GoMap LogOrigin Nat)
    (hr : r < h.length) :
    h.length ≠ r ∧
    MapHeap.read (MapHeap.write (h ++ [[]]) h.length x) r = MapHeap.read h r ∧
    MapHeap.read (MapHeap.write (h ++ [[]]) h.length x) h.length = x := by
  refine ⟨by omega, ?_, ?_⟩
  · rw [MapHeap.read_write_ne _ _ _ _ (by omega), read_append_left h [] r hr]
  · exact MapHeap.read_write_same _ _ _ (by simp)

/-- Claim C11: in both variants `Dump` leaves the table unchanged and returns a map with
exactly the entries of the table (a table being a map, with one entry for a key, as all
tables built by `newLogCounter` and `update` are).  On the heap of map objects the map
returned is a new object, `Dump` does not write the table's object, and no later run of
updates on the counter changes the object returned. -/
theorem Dump_snapshot :
    (∀ lc : Simple.LogCounter, (lc.Dump).1 = lc ∧
      ((GoMap.keys lc.data).Nodup → (lc.Dump).2 = lc.data)) ∧
    (∀ lc : Zap.LogCounter, (lc.Dump).1 = lc ∧
      ((GoMap.keys lc.data).Nodup → (lc.Dump).2 = lc.data)) ∧
    ((GoMap.keys Simple.newLogCounter.data).Nodup ∧
      (GoMap.keys Zap.newLogCounter.data).Nodup ∧
      (∀ (lc : Simple.LogCounter) (o : LogOrigin), (GoMap.keys lc.data).Nodup →
        (GoMap.keys (lc.update o).1.data).Nodup) ∧
      (∀ (lc : Zap.LogCounter) (o : LogOrigin), (GoMap.keys lc.data).Nodup →
        (GoMap.keys (lc.update o).data).Nodup)) ∧
    (∀ (h : MapHeap) (r : Nat), r < h.length →
      (Simple.DumpAt h r).2 ≠ r ∧
      MapHeap.read (Simple.DumpAt h r).1 r = MapHeap.read h r ∧
      MapHeap.read (Simple.DumpAt h r).1 (Simple.DumpAt h r).2 =
        (Simple.LogCounter.Dump { data := MapHeap.read h r }).2 ∧
      ∀ os : List LogOrigin,
        MapHeap.read (Simple.updateAllAt (Simple.DumpAt h r).1 r os) (Simple.DumpAt h r).2 =
          MapHeap.read (Simple.DumpAt h r).1 (Simple.DumpAt h r).2) ∧
    (∀ (h : MapHeap) (r : Nat), r < h.length →
      (Zap.DumpAt h r).2 ≠ r ∧
      MapHeap.read (Zap.DumpAt h r).1 r = MapHeap.read h r ∧
      MapHeap.read (Zap.DumpAt h r).1 (Zap.DumpAt h r).2 =
        (Zap.LogCounter.Dump { data := MapHeap.read h r }).2 ∧
      ∀ os : List LogOrigin,
        MapHeap.read (Zap.updateAllAt (Zap.DumpAt h r).1 r os) (Zap.DumpAt h r).2 =
          MapHeap.read (Zap.DumpAt h r).1 (Zap.DumpAt h r).2) := by
  refine ⟨?_, ?_, ⟨?_, ?_, ?_, ?_⟩, ?_, ?_⟩
  · intro lc
    refine ⟨rfl, fun hnd => ?_⟩
    have h := GoMap.foldl_set_of_nodup lc.data [] (by simpa using hnd)
    simpa [Simple.LogCounter.Dump] using h
  · intro lc
    refine ⟨rfl, fun hnd => ?_⟩
    have h := GoMap.foldl_set_of_nodup lc.data [] (by simpa using hnd)
    simpa [Zap.LogCounter.Dump] using h
  · simp [Simple.newLogCounter, GoMap.keys]
  · simp [Zap.newLogCounter, GoMap.keys]
  · intro lc o hnd
    exact GoMap.nodup_keys_set _ _ _ hnd
  · intro lc o hnd
    exact GoMap.nodup_keys_set _ _ _ hnd
  · intro h r hr
    rw [simple_DumpAt_eq]
    obtain ⟨h1, h2, h3⟩ := dump_heap_facts h r
      (Simple.LogCounter.Dump { data := MapHeap.read h r }).2 hr
    exact ⟨h1, h2, h3, fun os => simple_updateAllAt_read_ne r h.length (Ne.symm h1) os _⟩
  · intro h r hr
    rw [zap_DumpAt_eq]
    obtain ⟨h1, h2, h3⟩ := dump_heap_facts h r
      (Zap.LogCounter.Dump { data := MapHeap.read h r }).2 hr
    exact ⟨h1, h2, h3, fun os => zap_updateAllAt_read_ne r h.length (Ne.symm h1) os _⟩

/-- Witness of claim C11: a table with one entry at address 0, dumped and then updated
twice. -/
theorem Dump_snapshot_witness :
    (Simple.LogCounter.Dump { data := [(sampleOrigin, 3)] }).2 = [(sampleOrigin, 3)] ∧
    MapHeap.read
        (Simple.updateAllAt (Simple.DumpAt [[(sampleOrigin, 3)]] 0).1 0
          [sampleOrigin, sampleOrigin2])
        (Simple.DumpAt [[(sampleOrigin, 3)]] 0).2 =
      MapHeap.read (Simple.DumpAt [[(sampleOrigin, 3)]] 0).1
        (Simple.DumpAt [[(sampleOrigin, 3)]] 0).2 :=
  ⟨(Dump_snapshot.1 { data := [(sampleOrigin, 3)] }).2 (by decide),
   (Dump_snapshot.2.2.2.1 [[(sampleOrigin, 3)]] 0 (by decide)).2.2.2
     [sampleOrigin, sampleOrigin2]⟩

/-! ### The table only grows -/

/-- Claim C12: in both variants `update(o)` keeps every key of the table, adds no key
other than `o` and changes the count of no origin other than `o`; `Lookup` and `Dump`
return the table as it was. -/
theorem table_only_grows :
    (∀ (lc : Simple.LogCounter) (o k : LogOrigin),
      (k ∈ GoMap.keys lc.data → k ∈ GoMap.keys (lc.update o).1.data) ∧
      (k ∈ GoMap.keys (lc.update o).1.data → k = o ∨ k ∈ GoMap.keys lc.data) ∧
      (k ≠ o → GoMap.lookup (lc.update o).1.data k = GoMap.lookup lc.data k) ∧
      (lc.Lookup k).1 = lc ∧ (lc.Dump).1 = lc) ∧
    (∀ (lc : Zap.LogCounter) (o k : LogOrigin),
      (k ∈ GoMap.keys lc.data → k ∈ GoMap.keys (lc.update o).data) ∧
      (k ∈ GoMap.keys (lc.update o).data → k = o ∨ k ∈ GoMap.keys lc.data) ∧
      (k ≠ o → GoMap.lookup (lc.update o).data k = GoMap.lookup lc.data k) ∧
      (lc.Lookup k).1 = lc ∧ (lc.Dump).1 = lc) := by
  constructor
  · intro lc o k
    refine ⟨fun h => ?_, fun h => ?_, fun h => ?_, rfl, rfl⟩
    · exact (GoMap.mem_keys_set _ _ _ _).mpr (Or.inr h)
    · exact (GoMap.mem_keys_set _ _ _ _).mp h
    · exact GoMap.lookup_set_ne _ _ _ _ h
  · intro lc o k
    refine ⟨fun h => ?_, fun h => ?_, fun h => ?_, ?_, rfl⟩
    · exact (GoMap.mem_keys_set _ _ _ _).mpr (Or.inr h)
    · exact (GoMap.mem_keys_set _ _ _ _).mp h
    · exact GoMap.lookup_set_ne _ _ _ _ h
    · simp only [Zap.LogCounter.Lookup]
      split <;> rfl

/-- Witness of claim C12: a table that records the sample origin, updated at another
origin. -/
theorem table_only_grows_witness :
    sampleOrigin ∈ GoMap.keys
      (Simple.LogCounter.update { data := [(sampleOrigin, 3)] } sampleOrigin2).1.data ∧
    GoMap.lookup
      (Simple.LogCounter.update { data := [(sampleOrigin, 3)] } sampleOrigin2).1.data
      sampleOrigin = GoMap.lookup [(sampleOrigin, 3)] sampleOrigin ∧
    sampleOrigin ∈ GoMap.keys
      (Zap.LogCounter.update { data := [(sampleOrigin, 3)] } sampleOrigin2).data :=
  ⟨(table_only_grows.1 { data := [(sampleOrigin, 3)] } sampleOrigin2 sampleOrigin).1
      (by decide),
   (table_only_grows.1 { data := [(sampleOrigin, 3)] } sampleOrigin2 sampleOrigin).2.2.1
      (by decide),
   (table_only_grows.2 { data := [(sampleOrigin, 3)] } sampleOrigin2 sampleOrigin).1
      (by decide)⟩

/-! ### Failure of stack introspection -/

/-- The package computation of `logger.go` and of the zap variant panics on the empty
function name: the slice `funcName[:firstDot]` has the bound `-1`. -/
theorem pkg_of_empty_name :
    Base.getCallerPackage_pkg [] = none ∧ Zap.getCallerInfo_pkg [] = none := by
  decide

/-- Claim C13: when `runtime.Caller` has no frame for the requested depth, every resolver
panics and returns no identity: `getCallerInfo` of the simple and of the zap variant by
their check of `ok`, `getCallerPackage` of `logger.go` by the slice expression on the
empty function name. -/
theorem resolver_panics_without_frame (skip : Nat) (stk : List Frame) :
    (Caller (Base.frameGetCallerPackage :: stk) (skip + 1) = none →
      Base.getCallerPackage skip stk = none) ∧
    (Caller (Simple.frameGetCallerInfo :: stk) (skip + 1) = none →
      Simple.getCallerInfo skip stk = none) ∧
    (Caller (Zap.frameGetCallerInfo :: stk) (skip + 1) = none →
      Zap.getCallerInfo skip stk = none) ∧
    (stk.length ≤ skip →
      Base.getCallerPackage skip stk = none ∧ Simple.getCallerInfo skip stk = none ∧
      Zap.getCallerInfo skip stk = none) := by
  have hb : Caller (Base.frameGetCallerPackage :: stk) (skip + 1) = none →
      Base.getCallerPackage skip stk = none := by
    intro h
    simp only [Base.getCallerPackage, h]
    exact pkg_of_empty_name.1
  have hs : Caller (Simple.frameGetCallerInfo :: stk) (skip + 1) = none →
      Simple.getCallerInfo skip stk = none := by
    intro h
    simp only [Simple.getCallerInfo, h]
  have hz : Caller (Zap.frameGetCallerInfo :: stk) (skip + 1) = none →
      Zap.getCallerInfo skip stk = none := by
    intro h
    simp only [Zap.getCallerInfo, h]
  refine ⟨hb, hs, hz, fun hlen => ?_⟩
  have hc : ∀ fr : Frame, Caller (fr :: stk) (skip + 1) = none := by
    intro fr
    simp only [Caller, List.get?_cons_succ]
    exact List.get?_eq_none.mpr hlen
  exact ⟨hb (hc _), hs (hc _), hz (hc _)⟩

/-- Witness of claim C13: a stack of one frame and the depth 2. -/
theorem resolver_panics_without_frame_witness :
    Base.getCallerPackage 2 [sampleFrame] = none ∧
    Simple.getCallerInfo 2 [sampleFrame] = none ∧
    Zap.getCallerInfo 2 [sampleFrame] = none :=
  (resolver_panics_without_frame 2 [sampleFrame]).2.2.2 (by decide)

/-! ### Level from the environment -/

/-- Claim C14: `getLoggerLevelFromEnv` returns the level named by `LOGGER_LVL` and leaves
`setFromEnv` true for the seven values `debug`, `info`, `warn`, `error`, `dpanic`, `panic`
and `fatal`; for every other value, the empty value of an unset variable included, it
returns `InfoLevel` and leaves `setFromEnv` false.  `init` builds the default logger
with that level and `IsSetFromEnv` reports that flag. -/
theorem level_from_env (env : Env) :
    (Getenv env Simple.LOGGER_LVL = "debug".toList →
      Simple.getLoggerLevelFromEnv env = (DebugLevel, true)) ∧
    (Getenv env Simple.LOGGER_LVL = "info".toList →
      Simple.getLoggerLevelFromEnv env = (InfoLevel, true)) ∧
    (Getenv env Simple.LOGGER_LVL = "warn".toList →
      Simple.getLoggerLevelFromEnv env = (WarnLevel, true)) ∧
    (Getenv env Simple.LOGGER_LVL = "error".toList →
      Simple.getLoggerLevelFromEnv env = (ErrorLevel, true)) ∧
    (Getenv env Simple.LOGGER_LVL = "dpanic".toList →
      Simple.getLoggerLevelFromEnv env = (DPanicLevel, true)) ∧
    (Getenv env Simple.LOGGER_LVL = "panic".toList →
      Simple.getLoggerLevelFromEnv env = (PanicLevel, true)) ∧
    (Getenv env Simple.LOGGER_LVL = "fatal".toList →
      Simple.getLoggerLevelFromEnv env = (FatalLevel, true)) ∧
    (Getenv env Simple.LOGGER_LVL ∉
        ["debug".toList, "info".toList, "warn".toList, "error".toList, "dpanic".toList,
          "panic".toList, "fatal".toList] →
      Simple.getLoggerLevelFromEnv env = (InfoLevel, false)) ∧
    (Simple.LOGGER_LVL ∉ GoMap.keys env → Simple.getLoggerLevelFromEnv env = (InfoLevel, false)) ∧
    (∃ p : Simple.Package, Simple.init env = some p ∧
      (Simple.Default p).cfg.Level = (Simple.getLoggerLevelFromEnv env).1 ∧
      Simple.IsSetFromEnv p = (Simple.getLoggerLevelFromEnv env).2) := by
  refine ⟨?_, ?_, ?_, ?_, ?_, ?_, ?_, ?_, ?_, ?_⟩
  · intro h; simp only [Simple.getLoggerLevelFromEnv, h]; decide
  · intro h; simp only [Simple.getLoggerLevelFromEnv, h]; decide
  · intro h; simp only [Simple.getLoggerLevelFromEnv, h]; decide
  · intro h; simp only [Simple.getLoggerLevelFromEnv, h]; decide
  · intro h; simp only [Simple.getLoggerLevelFromEnv, h]; decide
  · intro h; simp only [Simple.getLoggerLevelFromEnv, h]; decide
  · intro h; simp only [Simple.getLoggerLevelFromEnv, h]; decide
  · intro h
    simp only [List.mem_cons, List.mem_singleton, not_or, List.not_mem_nil, or_false] at h
    obtain ⟨h1, h2, h3, h4, h5, h6, h7⟩ := h
    simp only [Simple.getLoggerLevelFromEnv, h1, h2, h3, h4, h5, h6, h7, if_false]
  · intro h
    have h0 : Getenv env Simple.LOGGER_LVL = [] := by
      simp only [Getenv, GoMap.get_of_lookup_none [] _ _ ((GoMap.lookup_eq_none_iff _ _).mpr h)]
    simp only [Simple.getLoggerLevelFromEnv, h0]
    decide
  · exact ⟨_, rfl, rfl, rfl⟩

/-- Witness of claim C14: the variable set to `debug`, set to `verbose`, and not set. -/
theorem level_from_env_witness :
    Simple.getLoggerLevelFromEnv [("LOGGER_LVL".toList, "debug".toList)] =
      (DebugLevel, true) ∧
    Simple.getLoggerLevelFromEnv [("LOGGER_LVL".toList, "verbose".toList)] =
      (InfoLevel, false) ∧
    Simple.getLoggerLevelFromEnv [] = (InfoLevel, false) :=
  ⟨(level_from_env [("LOGGER_LVL".toList, "debug".toList)]).1 (by decide),
   (level_from_env [("LOGGER_LVL".toList, "verbose".toList)]).2.2.2.2.2.2.2.1 (by decide),
   (level_from_env []).2.2.2.2.2.2.2.2.1 (by decide)⟩

/-! ### Construction and reset -/

/-- Claim C15: `NewLogger(nil)` and `New` of the zap variant with a nil writer panic;
`Reset(nil)` panics and leaves the package variables, the default logger included, as
they were; for every configuration `NewLogger` returns, and `Reset` installs as default, a
logger with that configuration, no back end call and an empty counter table, in which
`Lookup` finds no origin. -/
theorem construction_requires_config :
    Simple.NewLogger none = none ∧
    (∀ p : Simple.Package, Simple.Reset p none = Outcome.panicked p) ∧
    (∀ (lvl : Level) (packages : List GoString), Zap.New none lvl packages = none) ∧
    (∀ cfg : Simple.LoggerConfig, ∃ l : Simple.Logger,
      Simple.NewLogger (some cfg) = some l ∧ l.cfg = cfg ∧ l.l = [] ∧ l.LogCount.data = [] ∧
      ∀ o : LogOrigin, (l.LogCount.Lookup o).2 = (0, false)) ∧
    (∀ (p : Simple.Package) (cfg : Simple.LoggerConfig), ∃ p2 : Simple.Package,
      Simple.Reset p (some cfg) = Outcome.returned p2 ∧
      p2.setFromEnv = p.setFromEnv ∧
      (Simple.Default p2).cfg = cfg ∧ (Simple.Default p2).LogCount.data = [] ∧
      ∀ o : LogOrigin, ((Simple.Default p2).LogCount.Lookup o).2 = (0, false)) := by
  refine ⟨rfl, fun _ => rfl, fun _ _ => rfl, fun cfg => ?_, fun p cfg => ?_⟩
  · exact ⟨_, rfl, rfl, rfl, rfl, fun _ => rfl⟩
  · exact ⟨_, rfl, rfl, rfl, rfl, fun _ => rfl⟩

/-! ### Counting below debug level in the simple variant -/

/-- Claim C16, the code at the failing input: on an info-level logger `Debug` leaves the
counter table as it was, but `Error` and `Fatal`, as methods and as package-level
functions, record their call site. -/
theorem error_counts_above_debug_level :
    sampleInfoLogger.cfg.Level > DebugLevel ∧
    sampleInfoLogger.LogCount.data = [] ∧
    sampleInfoLogger.Debug [sampleFrame] "debug message 1".toList [] =
      some sampleInfoLogger ∧
    (sampleInfoLogger.Error [sampleErrorFrame] "error message 1".toList []).map
      (fun l => l.LogCount.data) = some [(sampleOrigin2, 1)] ∧
    (Simple.Error sampleInfoLogger [sampleErrorFrame] "error message 1".toList []).map
      (fun l => l.LogCount.data) = some [(sampleOrigin2, 1)] ∧
    (sampleInfoLogger.Fatal [sampleErrorFrame] "fatal message 1".toList []).map
      (fun l => l.LogCount.data) = some [(sampleOrigin2, 1)] ∧
    (Simple.Fatal sampleInfoLogger [sampleErrorFrame] "fatal message 1".toList []).map
      (fun l => l.LogCount.data) = some [(sampleOrigin2, 1)] := by
  decide

/-! ### Metrics of the zap variant -/

/-- A severity method of the zap variant whose caller passes the gate: the call reaches
the back end and, with metrics on, the origin of the caller is counted. -/
theorem zap_log_open (l : Zap.Logger) (e f : Frame) (rest : List Frame) (lvl : Level)
    (msg : GoString) (fields : List Field) (pkg : GoString)
    (hres : Zap.getCallerInfo_pkg f.funcName = some pkg)
    (hopen : l.pkgs = [] ∨ pkg ∈ GoMap.keys l.pkgs) :
    l.log e lvl (f :: rest) msg fields =
      some { l := l.l ++ [{ level := lvl, msg := msg, fields := fields }],
             pkgs := l.pkgs, metrics := l.metrics,
             LogCount := if l.metrics then l.LogCount.update { File := f.file, Line := f.line }
               else l.LogCount } := by
  have h1 : Zap.getCallerInfo 2 (Zap.frameCheckEnabled :: e :: f :: rest) =
      some (pkg, f.file, f.line) := by
    rw [zap_getCallerInfo_check, hres]
    rfl
  have h2 : ¬ (GoMap.len l.pkgs > 0 ∧ (GoMap.get false l.pkgs pkg).2 = false) := by
    rintro ⟨ha, hb⟩
    rcases hopen with h | h
    · rw [h] at ha
      exact absurd ha (by decide)
    · rw [(GoMap.get_snd_iff false l.pkgs pkg).mpr h] at hb
      cases hb
  cases hm : l.metrics <;>
    simp [Zap.Logger.log, Zap.Logger.checkEnabledAndUpdateMetrics, h1, h2, hm,
      Zap.Logger.updateMetrics]

/-- A severity method of the zap variant on a logger without metrics keeps the counter
table, the allow-set and the metrics flag. -/
theorem zap_log_no_metrics (l l2 : Zap.Logger) (e : Frame) (stk : List Frame) (lvl : Level)
    (msg : GoString) (fields : List Field) (hm : l.metrics = false)
    (hret : l.log e lvl stk msg fields = some l2) :
    l2.LogCount = l.LogCount ∧ l2.metrics = false ∧ l2.pkgs = l.pkgs := by
  simp only [Zap.Logger.log, Zap.Logger.checkEnabledAndUpdateMetrics] at hret
  cases hg : Zap.getCallerInfo 2 (Zap.frameCheckEnabled :: e :: stk) with
  | none => simp [hg] at hret
  | some r =>
    obtain ⟨pkg, file, line⟩ := r
    simp only [hg, hm] at hret
    by_cases hc : GoMap.len l.pkgs > 0 ∧ (GoMap.get false l.pkgs pkg).2 = false
    · simp only [hc, and_self, if_true] at hret
      cases hret
      exact ⟨rfl, hm, rfl⟩
    · simp only [hc, if_false] at hret
      simp at hret
      subst hret
      exact ⟨rfl, hm, rfl⟩

theorem zap_call_no_metrics (l l2 : Zap.Logger) (c : Zap.Call) (hm : l.metrics = false)
    (hret : l.call c = some l2) :
    l2.LogCount = l.LogCount ∧ l2.metrics = false ∧ l2.pkgs = l.pkgs := by
  unfold Zap.Logger.call at hret
  cases hc : c.method <;> simp only [hc] at hret <;>
    exact zap_log_no_metrics l l2 _ _ _ _ _ hm hret

theorem zap_calls_no_metrics (cs : List Zap.Call) :
    ∀ (l l2 : Zap.Logger), l.metrics = false → l.calls cs = some l2 →
      l2.LogCount = l.LogCount ∧ l2.metrics = false ∧ l2.pkgs = l.pkgs := by
  induction cs with
  | nil =>
    intro l l2 hm hret
    simp only [Zap.Logger.calls, Option.some.injEq] at hret
    subst hret
    exact ⟨rfl, hm, rfl⟩
  | cons c cs ih =>
    intro l l2 hm hret
    simp only [Zap.Logger.calls] at hret
    cases hc : l.call c with
    | none => simp [hc] at hret
    | some l1 =>
      simp only [hc] at hret
      obtain ⟨a1, a2, a3⟩ := zap_call_no_metrics l l1 c hm hc
      obtain ⟨b1, b2, b3⟩ := ih l1 l2 a2 hret
      exact ⟨b1.trans a1, b2, b3.trans a3⟩

/-- A call of a severity method of the zap variant whose caller passes the gate. -/
theorem zap_call_open (l : Zap.Logger) (c : Zap.Call) (f : Frame) (rest : List Frame)
    (pkg : GoString) (hstk : c.stk = f :: rest)
    (hres : Zap.getCallerInfo_pkg f.funcName = some pkg)
    (hopen : l.pkgs = [] ∨ pkg ∈ GoMap.keys l.pkgs) :
    ∃ lvl : Level, l.call c =
      some { l := l.l ++ [{ level := lvl, msg := c.msg, fields := c.fields }],
             pkgs := l.pkgs, metrics := l.metrics,
             LogCount := if l.metrics then l.LogCount.update { File := f.file, Line := f.line }
               else l.LogCount } := by
  unfold Zap.Logger.call
  cases hc : c.method <;> simp only [hc, hstk] <;>
    exact ⟨_, zap_log_open l _ f rest _ c.msg c.fields pkg hres hopen⟩

/-- Claim C17, as amended: `New` of the zap variant sets `metrics` iff the level is
`DebugLevel` and starts with an empty counter table.  On a logger without metrics, as
`New` returns for every other level, calls of the severity methods leave the counter
table as it was, hence empty.  On a logger with metrics every call that passes the gate
replaces the count of its `(file, line)` origin by that count plus 1 modulo `2 ^ 32`, 0
standing for no count, which is the count plus 1 as long as that is below `2 ^ 32`, and
changes no other count. -/
theorem zap_metrics_only_on_debug :
    (∀ (w : Nat) (lvl : Level) (packages : List GoString), ∃ l : Zap.Logger,
      Zap.New (some w) lvl packages = some l ∧ (l.metrics = true ↔ lvl = DebugLevel) ∧
      l.LogCount.data = []) ∧
    (∀ (l l2 : Zap.Logger) (cs : List Zap.Call), l.metrics = false →
      l.calls cs = some l2 → l2.LogCount = l.LogCount) ∧
    (∀ (w : Nat) (lvl : Level) (packages : List GoString) (l l2 : Zap.Logger)
      (cs : List Zap.Call), lvl ≠ DebugLevel → Zap.New (some w) lvl packages = some l →
      l.calls cs = some l2 → l2.LogCount.data = []) ∧
    (∀ (l : Zap.Logger) (c : Zap.Call) (f : Frame) (rest : List Frame) (pkg : GoString),
      l.metrics = false → c.stk = f :: rest → Zap.getCallerInfo_pkg f.funcName = some pkg →
      ∃ l2 : Zap.Logger, l.call c = some l2 ∧ l2.LogCount = l.LogCount) ∧
    (∀ (l : Zap.Logger) (c : Zap.Call) (f : Frame) (rest : List Frame) (pkg : GoString),
      l.metrics = true → c.stk = f :: rest → Zap.getCallerInfo_pkg f.funcName = some pkg →
      (l.pkgs = [] ∨ pkg ∈ GoMap.keys l.pkgs) →
      ∃ l2 : Zap.Logger, l.call c = some l2 ∧
        GoMap.lookup l2.LogCount.data { File := f.file, Line := f.line } =
          some (((GoMap.get 0 l.LogCount.data { File := f.file, Line := f.line }).1 + 1)
            % 2 ^ 32) ∧
        ((GoMap.get 0 l.LogCount.data { File := f.file, Line := f.line }).1 + 1 < 2 ^ 32 →
          GoMap.lookup l2.LogCount.data { File := f.file, Line := f.line } =
            some ((GoMap.get 0 l.LogCount.data { File := f.file, Line := f.line }).1 + 1)) ∧
        ∀ k : LogOrigin, k ≠ { File := f.file, Line := f.line } →
          GoMap.lookup l2.LogCount.data k = GoMap.lookup l.LogCount.data k) := by
  refine ⟨?_, ?_, ?_, ?_, ?_⟩
  · intro w lvl packages
    refine ⟨_, rfl, ?_, rfl⟩
    simp
  · intro l l2 cs hm hret
    exact (zap_calls_no_metrics cs l l2 hm hret).1
  · intro w lvl packages l l2 cs hlvl hnew hret
    simp only [Zap.New, Option.some.injEq] at hnew
    subst hnew
    have h := (zap_calls_no_metrics cs _ l2 (by simp [hlvl]) hret).1
    rw [h]
    rfl
  · intro l c f rest pkg hm hstk hres
    by_cases hopen : l.pkgs = [] ∨ pkg ∈ GoMap.keys l.pkgs
    · obtain ⟨lvl, h⟩ := zap_call_open l c f rest pkg hstk hres hopen
      exact ⟨_, h, by simp [hm]⟩
    · have h1 : l.pkgs ≠ [] := fun h => hopen (Or.inl h)
      have h2 : pkg ∉ GoMap.keys l.pkgs := fun h => hopen (Or.inr h)
      refine ⟨l, ?_, rfl⟩
      unfold Zap.Logger.call
      cases hc : c.method <;> simp only [hc, hstk] <;>
        exact zap_log_gated l _ f rest _ c.msg c.fields pkg h1 hres h2
  · intro l c f rest pkg hm hstk hres hopen
    obtain ⟨lvl, h⟩ := zap_call_open l c f rest pkg hstk hres hopen
    refine ⟨_, h, ?_, ?_, ?_⟩
    · simp only [hm, if_true, Zap.LogCounter.update, GoMap.lookup_set_self]
    · intro hlt
      simp only [hm, if_true, Zap.LogCounter.update, GoMap.lookup_set_self,
        Nat.mod_eq_of_lt hlt]
    · intro k hk
      simp only [hm, if_true, Zap.LogCounter.update]
      exact GoMap.lookup_set_ne _ _ _ _ hk

/-- Witness of claim C17: a `Warn` call from `outerpackage.Log` on a logger with metrics
and an empty allow-set. -/
theorem zap_metrics_only_on_debug_witness :
    ∃ l2 : Zap.Logger,
      sampleZapOpenLogger.call
        { method := Zap.Method.Warn, stk := [sampleOuterFrame],
          msg := "warn message 1".toList, fields := [] } = some l2 ∧
      GoMap.lookup l2.LogCount.data
          { File := sampleOuterFrame.file, Line := sampleOuterFrame.line } =
        some (((GoMap.get 0 sampleZapOpenLogger.LogCount.data
          { File := sampleOuterFrame.file, Line := sampleOuterFrame.line }).1 + 1) % 2 ^ 32) ∧
      ((GoMap.get 0 sampleZapOpenLogger.LogCount.data
          { File := sampleOuterFrame.file, Line := sampleOuterFrame.line }).1 + 1 < 2 ^ 32 →
        GoMap.lookup l2.LogCount.data
            { File := sampleOuterFrame.file, Line := sampleOuterFrame.line } =
          some ((GoMap.get 0 sampleZapOpenLogger.LogCount.data
            { File := sampleOuterFrame.file, Line := sampleOuterFrame.line }).1 + 1)) ∧
      ∀ k : LogOrigin, k ≠ { File := sampleOuterFrame.file, Line := sampleOuterFrame.line } →
        GoMap.lookup l2.LogCount.data k = GoMap.lookup sampleZapOpenLogger.LogCount.data k :=
  zap_metrics_only_on_debug.2.2.2.2 sampleZapOpenLogger
    { method := Zap.Method.Warn, stk := [sampleOuterFrame],
      msg := "warn message 1".toList, fields := [] }
    sampleOuterFrame [] "github.com/geyslan/logger-poc/outerpackage".toList
    rfl rfl (by decide) (Or.inl rfl)

/-- Counterexample to claim C17 as stated: on a logger with metrics and an empty
allow-set whose table records the call site with the count `4294967295`, a `Warn` call
from that site passes the gate and leaves the count 0, not `4294967296`. -/
theorem zap_count_wraps_to_zero :
    sampleZapFullLogger.metrics = true ∧
    sampleZapFullLogger.pkgs = [] ∧
    GoMap.lookup sampleZapFullLogger.LogCount.data
      { File := sampleOuterFrame.file, Line := sampleOuterFrame.line } = some 4294967295 ∧
    (sampleZapFullLogger.Warn [sampleOuterFrame] "warn message 1".toList []).map
      (fun l => (l.l.length, GoMap.lookup l.LogCount.data
        { File := sampleOuterFrame.file, Line := sampleOuterFrame.line })) =
      some (1, some 0) ∧
    (sampleZapFullLogger.Warn [sampleOuterFrame] "warn message 1".toList []).map
      (fun l => GoMap.lookup l.LogCount.data
        { File := sampleOuterFrame.file, Line := sampleOuterFrame.line }) ≠
      some (some (4294967295 + 1)) := by
  decide

/-! ### The frame the resolvers read -/

/-- In `isPackageSet` called by `WarnfPkg` the resolver of `logger.go` reads frame 0 of
the stack `WarnfPkg` was called with: its caller. -/
theorem base_getCallerPackage_entry (h e f : Frame) (rest : List Frame) :
    Base.getCallerPackage 2 (h :: e :: f :: rest) = Base.getCallerPackage_pkg f.funcName := by
  simp only [Base.getCallerPackage, Caller, List.get?]

theorem simple_entry_resolved (h e f : Frame) (rest : List Frame) (pkg : GoString)
    (hres : Simple.getCallerInfo_pkg f.funcName = some pkg) :
    Simple.getCallerInfo (1 + 1) (h :: e :: f :: rest) = some (pkg, f.file, f.line) := by
  show Simple.getCallerInfo 2 _ = _
  rw [simple_getCallerInfo_entry, hres]
  rfl

/-- Claim C18: with the resolver's frame at index 0, the index every public entry point
makes the resolver pass to `runtime.Caller` is 3, the number of frames of the logger
package above the call site (resolver, helper or gate, entry point), so the frame read
is the caller of the entry point: the simple variant counts, the zap variant gates and
counts, and `WarnfPkg` of `logger.go` gates on that frame's file, line and function
name. -/
theorem resolver_reads_call_site (f : Frame) (rest : List Frame) :
    (∀ a b c : Frame, Caller (a :: b :: c :: f :: rest) 3 = some f) ∧
    (∀ h e : Frame, Simple.getCallerInfo (1 + 1) (h :: e :: f :: rest) =
      (Simple.getCallerInfo_pkg f.funcName).map (fun pkg => (pkg, f.file, f.line))) ∧
    (∀ e : Frame, Zap.getCallerInfo 2 (Zap.frameCheckEnabled :: e :: f :: rest) =
      (Zap.getCallerInfo_pkg f.funcName).map (fun pkg => (pkg, f.file, f.line))) ∧
    Base.getCallerPackage 2 (Base.frameIsPackageSet :: Base.frameWarnfPkg :: f :: rest) =
      Base.getCallerPackage_pkg f.funcName ∧
    (∀ (l : Simple.Logger) (msg : GoString) (fields : List Field) (pkg : GoString),
      Simple.getCallerInfo_pkg f.funcName = some pkg →
      (¬ l.cfg.Level > DebugLevel →
        Simple.Debug l (f :: rest) msg fields =
          some (Simple.afterCall l DebugLevel f.file f.line msg fields) ∧
        l.Debug (f :: rest) msg fields =
          some (Simple.afterCall l DebugLevel f.file f.line msg fields)) ∧
      Simple.Error l (f :: rest) msg fields =
        some (Simple.afterCall l ErrorLevel f.file f.line msg fields) ∧
      l.Error (f :: rest) msg fields =
        some (Simple.afterCall l ErrorLevel f.file f.line msg fields) ∧
      Simple.Fatal l (f :: rest) msg fields =
        some (Simple.afterCall l FatalLevel f.file f.line msg fields) ∧
      l.Fatal (f :: rest) msg fields =
        some (Simple.afterCall l FatalLevel f.file f.line msg fields)) ∧
    (∀ (l : Zap.Logger) (c : Zap.Call) (pkg : GoString), c.stk = f :: rest →
      Zap.getCallerInfo_pkg f.funcName = some pkg →
      ((l.pkgs = [] ∨ pkg ∈ GoMap.keys l.pkgs) →
        ∃ lvl : Level, l.call c =
          some { l := l.l ++ [{ level := lvl, msg := c.msg, fields := c.fields }],
                 pkgs := l.pkgs, metrics := l.metrics,
                 LogCount := if l.metrics
                   then l.LogCount.update { File := f.file, Line := f.line }
                   else l.LogCount }) ∧
      (l.pkgs ≠ [] → pkg ∉ GoMap.keys l.pkgs → l.call c = some l)) ∧
    (∀ (l : Base.Logger) (out : List Base.LogrusCall) (format : GoString)
      (args : List GoString) (p : GoString), l.pkgs ≠ [] →
      Base.getCallerPackage_pkg f.funcName = some p →
      l.WarnfPkg out (f :: rest) format args =
        some (if p ∈ GoMap.keys l.pkgs then out ++ [{ format := format, args := args }]
          else out)) := by
  refine ⟨fun _ _ _ => rfl, fun h e => simple_getCallerInfo_entry h e f rest,
    fun e => zap_getCallerInfo_check e f rest, base_getCallerPackage_entry _ _ f rest,
    ?_, ?_, ?_⟩
  · intro l msg fields pkg hres
    refine ⟨fun hlvl => ⟨?_, ?_⟩, ?_, ?_, ?_, ?_⟩
    · exact simple_debug_step l 1 _ msg fields pkg f.file f.line hlvl
        (simple_entry_resolved _ _ f rest pkg hres)
    · exact simple_debug_step l 1 _ msg fields pkg f.file f.line hlvl
        (simple_entry_resolved _ _ f rest pkg hres)
    · exact simple_err_step l 1 _ msg fields pkg f.file f.line
        (simple_entry_resolved _ _ f rest pkg hres)
    · exact simple_err_step l 1 _ msg fields pkg f.file f.line
        (simple_entry_resolved _ _ f rest pkg hres)
    · exact simple_fatal_step l 1 _ msg fields pkg f.file f.line
        (simple_entry_resolved _ _ f rest pkg hres)
    · exact simple_fatal_step l 1 _ msg fields pkg f.file f.line
        (simple_entry_resolved _ _ f rest pkg hres)
  · intro l c pkg hstk hres
    refine ⟨fun hopen => zap_call_open l c f rest pkg hstk hres hopen, fun h1 h2 => ?_⟩
    unfold Zap.Logger.call
    cases hc : c.method <;> simp only [hc, hstk] <;>
      exact zap_log_gated l _ f rest _ c.msg c.fields pkg h1 hres h2
  · intro l out format args p hS hres
    have hlen : GoMap.len l.pkgs ≠ 0 := fun h => hS (List.length_eq_zero.mp h)
    have hg : Base.getCallerPackage 2
        (Base.frameIsPackageSet :: Base.frameWarnfPkg :: f :: rest) = some p := by
      rw [base_getCallerPackage_entry, hres]
    by_cases hp : p ∈ GoMap.keys l.pkgs
    · simp [Base.Logger.WarnfPkg, Base.Logger.isPackageSet, hlen, hg, hp,
        (GoMap.get_snd_iff false l.pkgs p).mpr hp]
    · have h2 : (GoMap.get false l.pkgs p).2 = false := by
        cases h3 : (GoMap.get false l.pkgs p).2
        · rfl
        · exact absurd ((GoMap.get_snd_iff false l.pkgs p).mp h3) hp
      simp [Base.Logger.WarnfPkg, Base.Logger.isPackageSet, hlen, hg, hp, h2]

/-- Witness of claim C18: `Error` of the simple variant called at line 16 of
`cmd/simple/main.go`, and `WarnfPkg` called from `outerpackage.Log` with the allow-set
`main`. -/
theorem resolver_reads_call_site_witness :
    sampleInfoLogger.Error (sampleErrorFrame :: []) "error message 1".toList [] =
      some (Simple.afterCall sampleInfoLogger ErrorLevel sampleErrorFrame.file
        sampleErrorFrame.line "error message 1".toList []) ∧
    sampleMainPkgLogger.WarnfPkg [] (sampleShortOuterFrame :: []) "%d %s".toList [] =
      some (if "outerpackage".toList ∈ GoMap.keys sampleMainPkgLogger.pkgs
        then [] ++ [{ format := "%d %s".toList, args := [] }] else []) :=
  ⟨((resolver_reads_call_site sampleErrorFrame []).2.2.2.2.1 sampleInfoLogger
      "error message 1".toList [] "main".toList (by decide)).2.2.1,
   (resolver_reads_call_site sampleShortOuterFrame []).2.2.2.2.2.2 sampleMainPkgLogger []
      "%d %s".toList [] "outerpackage".toList (by decide) (by decide)⟩

/-! ### Searching and slicing function names -/

theorem LastIndexByte_of_not_mem (s : GoString) (c : Char) (h : c ∉ s) :
    LastIndexByte s c = -1 := by
  induction s with
  | nil => rfl
  | cons x xs ih =>
    simp only [List.mem_cons, not_or] at h
    have hx : ¬ x = c := fun h2 => h.1 h2.symm
    simp [LastIndexByte, ih h.2, hx]

theorem LastIndexByte_append_cons (a b : GoString) (c : Char) (h : c ∉ b) :
    LastIndexByte (a ++ c :: b) c = a.length := by
  induction a with
  | nil => simp [LastIndexByte, LastIndexByte_of_not_mem b c h]
  | cons x xs ih =>
    have : (0 : Int) ≤ (xs.length : Int) := Int.ofNat_nonneg _
    rw [List.cons_append]
    simp only [LastIndexByte]
    rw [ih]
    simp [this]

theorem LastIndexByte_append_of_not_mem (s t : GoString) (c : Char) (h : c ∉ t) :
    LastIndexByte (s ++ t) c = LastIndexByte s c := by
  induction s with
  | nil => simp [LastIndexByte, LastIndexByte_of_not_mem t c h]
  | cons x xs ih =>
    rw [List.cons_append]
    simp only [LastIndexByte]
    rw [ih]

/-- What `LastIndexByte` returns: `-1` when the byte does not occur, otherwise the
length of the part before the last occurrence. -/
theorem LastIndexByte_spec (s : GoString) (c : Char) :
    (c ∉ s ∧ LastIndexByte s c = -1) ∨
    (∃ a b : GoString, s = a ++ c :: b ∧ c ∉ b ∧ LastIndexByte s c = a.length) := by
  by_cases h : c ∈ s
  · right
    obtain ⟨a, b, hs, hb⟩ := List.eq_append_cons_of_mem (List.mem_reverse.mpr h)
    refine ⟨b.reverse, a.reverse, ?_, ?_, ?_⟩
    · have := congrArg List.reverse hs
      simpa using this
    · simpa using hb
    · have h2 : s = b.reverse ++ c :: a.reverse := by
        have := congrArg List.reverse hs
        simpa using this
      rw [h2, LastIndexByte_append_cons _ _ _ (by simpa using hb)]
  · exact Or.inl ⟨h, LastIndexByte_of_not_mem s c h⟩

theorem LastIndexByte_lt_length (s : GoString) (c : Char) :
    LastIndexByte s c < s.length := by
  rcases LastIndexByte_spec s c with ⟨_, h⟩ | ⟨a, b, hs, _, h⟩
  · rw [h]
    have : (0 : Int) ≤ (s.length : Int) := Int.ofNat_nonneg _
    omega
  · rw [h, hs]
    simp

theorem Index_of_not_mem (s : GoString) (c : Char) (h : c ∉ s) : Index s [c] = -1 := by
  induction s with
  | nil => simp [Index]
  | cons x xs ih =>
    simp only [List.mem_cons, not_or] at h
    have hx : ¬ c = x := h.1
    simp [Index, ih h.2, List.isPrefixOf, hx]

theorem Index_append_cons (a b : GoString) (c : Char) (h : c ∉ a) :
    Index (a ++ c :: b) [c] = a.length := by
  induction a with
  | nil => simp [Index, List.isPrefixOf]
  | cons x xs ih =>
    simp only [List.mem_cons, not_or] at h
    have hx : ¬ c = x := h.1
    have : (0 : Int) ≤ (xs.length : Int) := Int.ofNat_nonneg _
    have h2 : ¬ ((xs.length : Int) < 0) := by omega
    simp [Index, ih h.2, List.isPrefixOf, hx, h2]

theorem slice_middle (a b c : GoString) :
    slice (a ++ b ++ c) a.length (a.length + b.length) = some b := by
  have h1 : (0 : Int) ≤ (a.length : Int) := Int.ofNat_nonneg _
  have h2 : (0 : Int) ≤ (b.length : Int) := Int.ofNat_nonneg _
  have h3 : (0 : Int) ≤ (c.length : Int) := Int.ofNat_nonneg _
  have hcond : 0 ≤ (a.length : Int) ∧ (a.length : Int) ≤ (a.length : Int) + (b.length : Int) ∧
      (a.length : Int) + (b.length : Int) ≤ ((a ++ b ++ c).length : Int) := by
    refine ⟨h1, by omega, ?_⟩
    simp only [List.length_append, Nat.cast_add]
    omega
  have h4 : ((a.length : Int) + (b.length : Int)).toNat - (a.length : Int).toNat =
      b.length := by
    omega
  have h5 : (a.length : Int).toNat = a.length := by omega
  unfold slice
  rw [if_pos hcond, h4, h5, List.append_assoc, List.drop_left, List.take_left]

theorem sliceFrom_append (a b : GoString) : sliceFrom (a ++ b) a.length = some b := by
  have h := slice_middle a b []
  simp only [List.append_nil] at h
  simp only [sliceFrom, List.length_append, Nat.cast_add]
  exact h

theorem sliceTo_append (a b : GoString) : sliceTo (a ++ b) a.length = some a := by
  have h := slice_middle [] a b
  simp only [List.nil_append, List.length_nil, Nat.cast_zero, zero_add] at h
  exact h

/-! ### Function names with a dot after the last slash -/

/-- A name with a `.` after its last `/` is a directory part, empty or ending in `/`,
followed by a part without `/` that contains a `.`. -/
theorem name_split (name : GoString)
    (h : LastIndexByte name '/' < LastIndexByte name '.') :
    ∃ dir tail : GoString, name = dir ++ tail ∧ '/' ∉ tail ∧ '.' ∈ tail ∧
      (dir = [] ∨ ∃ d : GoString, dir = d ++ ['/']) := by
  have hdot : '.' ∈ name := by
    by_contra hn
    rw [LastIndexByte_of_not_mem name '.' hn] at h
    rcases LastIndexByte_spec name '/' with ⟨_, h2⟩ | ⟨a, b, _, _, h2⟩
    · rw [h2] at h
      exact absurd h (by decide)
    · rw [h2] at h
      have : (0 : Int) ≤ (a.length : Int) := Int.ofNat_nonneg _
      omega
  rcases LastIndexByte_spec name '/' with ⟨h1, _⟩ | ⟨a, b, hs, hb, h2⟩
  · exact ⟨[], name, rfl, h1, hdot, Or.inl rfl⟩
  · refine ⟨a ++ ['/'], b, by simp [hs], hb, ?_, Or.inr ⟨a, rfl⟩⟩
    by_contra hn
    have h3 : LastIndexByte name '.' = LastIndexByte a '.' := by
      have hn2 : '.' ∉ '/' :: b := by
        simp only [List.mem_cons, not_or]
        exact ⟨by decide, hn⟩
      rw [hs, LastIndexByte_append_of_not_mem a _ '.' hn2]
    have h4 := LastIndexByte_lt_length a '.'
    rw [h3, h2] at h
    omega

/-- The start index `lastSlash` of the simple variant is the length of the directory
part. -/
theorem simple_lastSlash (dir tail : GoString) (ht : '/' ∉ tail)
    (hdir : dir = [] ∨ ∃ d : GoString, dir = d ++ ['/']) :
    (if LastIndexByte (dir ++ tail) '/' < 0 then (0 : Int)
      else LastIndexByte (dir ++ tail) '/' + 1) = dir.length := by
  rcases hdir with h | ⟨d, h⟩
  · subst h
    simp [LastIndexByte_of_not_mem tail '/' ht]
  · subst h
    have h2 : LastIndexByte (d ++ '/' :: tail) '/' = d.length :=
      LastIndexByte_append_cons d tail '/' ht
    have : (0 : Int) ≤ (d.length : Int) := Int.ofNat_nonneg _
    have h3 : ¬ ((d.length : Int) < 0) := by omega
    simp [h2, h3]

/-- The first slice of the simple variant on a name `dir ++ u ++ "." ++ v` whose last dot
is the one shown: it is in bounds and yields `u`. -/
theorem simple_first_slice (dir u v : GoString) (hu : '/' ∉ u) (hv : '/' ∉ v)
    (hv2 : '.' ∉ v) (hdir : dir = [] ∨ ∃ d : GoString, dir = d ++ ['/']) :
    slice (dir ++ u ++ '.' :: v)
      (if LastIndexByte (dir ++ u ++ '.' :: v) '/' < 0 then (0 : Int)
        else LastIndexByte (dir ++ u ++ '.' :: v) '/' + 1)
      (LastIndexByte (dir ++ u ++ '.' :: v) '.') = some u := by
  have ht : '/' ∉ u ++ '.' :: v := by
    simp only [List.mem_append, List.mem_cons, not_or]
    exact ⟨hu, by decide, hv⟩
  have h1 := simple_lastSlash dir (u ++ '.' :: v) ht hdir
  rw [← List.append_assoc] at h1
  rw [h1, LastIndexByte_append_cons (dir ++ u) v '.' hv2]
  have h2 := slice_middle dir u ('.' :: v)
  simp only [List.length_append, Nat.cast_add]
  exact h2

theorem simple_pkg_no_dot (dir u v : GoString) (hu : '/' ∉ u) (hv : '/' ∉ v)
    (hv2 : '.' ∉ v) (hdir : dir = [] ∨ ∃ d : GoString, dir = d ++ ['/'])
    (hu2 : '.' ∉ u) :
    Simple.getCallerInfo_pkg (dir ++ u ++ '.' :: v) = some u := by
  simp only [Simple.getCallerInfo_pkg, simple_first_slice dir u v hu hv hv2 hdir,
    LastIndexByte_of_not_mem u '.' hu2]
  simp

theorem simple_pkg_with_dot (dir u1 u2 v : GoString) (hu : '/' ∉ u1 ++ '.' :: u2)
    (hv : '/' ∉ v) (hv2 : '.' ∉ v) (hdir : dir = [] ∨ ∃ d : GoString, dir = d ++ ['/'])
    (hu2 : '.' ∉ u2) :
    Simple.getCallerInfo_pkg (dir ++ (u1 ++ '.' :: u2) ++ '.' :: v) = some u1 := by
  have h0 : (0 : Int) ≤ (u1.length : Int) := Int.ofNat_nonneg _
  have h1 : ¬ ((u1.length : Int) = -1) := by omega
  simp only [Simple.getCallerInfo_pkg,
    simple_first_slice dir (u1 ++ '.' :: u2) v hu hv hv2 hdir,
    LastIndexByte_append_cons u1 u2 '.' hu2]
  simp only [ne_eq, h1, not_false_eq_true, if_true]
  exact sliceTo_append u1 ('.' :: u2)

/-- The package computation of `logger.go` and of the zap variant on a name
`dir ++ seg ++ "." ++ b` whose first dot after the directory part is the one shown. -/
theorem zap_pkg_of_parts (dir seg b : GoString) (hseg : '/' ∉ seg) (hseg2 : '.' ∉ seg)
    (hb : '/' ∉ b) (hdir : dir = [] ∨ ∃ d : GoString, dir = d ++ ['/']) :
    Zap.getCallerInfo_pkg (dir ++ seg ++ '.' :: b) = some (dir ++ seg) := by
  have ht : '/' ∉ seg ++ '.' :: b := by
    simp only [List.mem_append, List.mem_cons, not_or]
    exact ⟨hseg, by decide, hb⟩
  rcases hdir with h | ⟨d, h⟩
  · subst h
    simp only [List.nil_append] 
    have h1 : LastIndexByte (seg ++ '.' :: b) '/' = -1 := LastIndexByte_of_not_mem _ _ ht
    have h2 : sliceFrom (seg ++ '.' :: b) 0 = some (seg ++ '.' :: b) :=
      sliceFrom_append [] (seg ++ '.' :: b)
    simp only [Zap.getCallerInfo_pkg, h1]
    simp only [show ((-1 : Int) < 0) from by decide, if_true, h2,
      Index_append_cons seg b '.' hseg2, add_zero]
    exact sliceTo_append seg ('.' :: b)
  · subst h
    have h1 : LastIndexByte (d ++ ['/'] ++ seg ++ '.' :: b) '/' = d.length := by
      rw [List.append_assoc, List.append_assoc]
      exact LastIndexByte_append_cons d _ '/' ht
    have h0 : (0 : Int) ≤ (d.length : Int) := Int.ofNat_nonneg _
    have h3 : ¬ ((d.length : Int) < 0) := by omega
    have h2 : sliceFrom (d ++ ['/'] ++ seg ++ '.' :: b) d.length =
        some (('/' :: seg) ++ '.' :: b) := by
      have := sliceFrom_append d (('/' :: seg) ++ '.' :: b)
      simpa using this
    have h4 : '.' ∉ '/' :: seg := by
      simp only [List.mem_cons, not_or]
      exact ⟨by decide, hseg2⟩
    simp only [Zap.getCallerInfo_pkg, h1, h3, if_false, h2,
      Index_append_cons ('/' :: seg) b '.' h4]
    have h5 := sliceTo_append (d ++ ['/'] ++ seg) ('.' :: b)
    simp only [List.length_append, List.length_cons, List.length_nil, Nat.cast_add,
      Nat.cast_one, zero_add] at h5 ⊢
    rw [← h5]
    congr 1
    omega

theorem base_pkg_eq_zap_pkg (name : GoString) :
    Base.getCallerPackage_pkg name = Zap.getCallerInfo_pkg name := rfl

theorem partAfterLastSlash_append (dir seg : GoString) (hseg : '/' ∉ seg)
    (hdir : dir = [] ∨ ∃ d : GoString, dir = d ++ ['/']) :
    partAfterLastSlash (dir ++ seg) = seg := by
  rcases hdir with h | ⟨d, h⟩
  · subst h
    simp [partAfterLastSlash, LastIndexByte_of_not_mem seg '/' hseg]
  · subst h
    have h2 : LastIndexByte (d ++ '/' :: seg) '/' = d.length :=
      LastIndexByte_append_cons d seg '/' hseg
    have h3 : ((d.length : Int) + 1).toNat = (d ++ ['/']).length := by
      simp only [List.length_append, List.length_cons, List.length_nil]
      omega
    have h4 : d ++ ['/'] ++ seg = d ++ '/' :: seg := by simp
    unfold partAfterLastSlash
    rw [h4, h2, h3, ← h4, List.drop_left]

/-- Claim C19: a name with a `.` after its last `/` is `dir ++ seg ++ "." ++ b` with `dir`
empty or ending in the last `/` and `seg` free of `.`; `getCallerPackage` of `logger.go`
and `getCallerInfo` of the zap variant return `dir ++ seg`, the whole import path; the
part of that after its last `/` is `seg`, and `seg` is what `getCallerInfo` of the
simple variant returns when `b` is a function name or a type name, a dot and a method
name. -/
theorem import_path_and_local_name (name : GoString)
    (h : LastIndexByte name '/' < LastIndexByte name '.') :
    ∃ dir seg b : GoString, name = dir ++ seg ++ '.' :: b ∧
      (dir = [] ∨ ∃ d : GoString, dir = d ++ ['/']) ∧
      '/' ∉ seg ∧ '.' ∉ seg ∧ '/' ∉ b ∧
      Base.getCallerPackage_pkg name = some (dir ++ seg) ∧
      Zap.getCallerInfo_pkg name = some (dir ++ seg) ∧
      partAfterLastSlash (dir ++ seg) = seg ∧
      (('.' ∉ b ∨ ∃ T m : GoString, b = T ++ '.' :: m ∧ '.' ∉ T ∧ '.' ∉ m) →
        Simple.getCallerInfo_pkg name = some seg) := by
  obtain ⟨dir, tail, hname, htail, hdot, hdir⟩ := name_split name h
  obtain ⟨seg, b, ht, hseg2⟩ := List.eq_append_cons_of_mem hdot
  have hseg : '/' ∉ seg := fun hm => htail (by rw [ht]; exact List.mem_append_left _ hm)
  have hb : '/' ∉ b := fun hm =>
    htail (by rw [ht]; exact List.mem_append_right _ (List.mem_cons_of_mem _ hm))
  have hn : name = dir ++ seg ++ '.' :: b := by rw [hname, ht, List.append_assoc]
  have hz := zap_pkg_of_parts dir seg b hseg hseg2 hb hdir
  refine ⟨dir, seg, b, hn, hdir, hseg, hseg2, hb, ?_, ?_,
    partAfterLastSlash_append dir seg hseg hdir, ?_⟩
  · rw [base_pkg_eq_zap_pkg, hn]
    exact hz
  · rw [hn]
    exact hz
  · rintro (hb2 | ⟨T, m, hT, hT2, hm2⟩)
    · rw [hn]
      exact simple_pkg_no_dot dir seg b hseg hb hb2 hdir hseg2
    · have hu : '/' ∉ seg ++ '.' :: T := by
        simp only [List.mem_append, List.mem_cons, not_or]
        refine ⟨hseg, by decide, fun hm => hb ?_⟩
        rw [hT]
        exact List.mem_append_left _ hm
      have hv : '/' ∉ m := fun hm => hb (by
        rw [hT]
        exact List.mem_append_right _ (List.mem_cons_of_mem _ hm))
      have h2 := simple_pkg_with_dot dir seg T m hu hv hm2 hdir hT2
      rw [hn, hT]
      have h3 : dir ++ seg ++ '.' :: (T ++ '.' :: m) = dir ++ (seg ++ '.' :: T) ++ '.' :: m := by
        simp
      rw [h3]
      exact h2

/-- Witness of claim C19: the method `empty.fun` of package `outerpackage`. -/
theorem import_path_and_local_name_witness :
    ∃ dir seg b : GoString,
      "github.com/geyslan/logger-poc/outerpackage.empty.fun".toList = dir ++ seg ++ '.' :: b ∧
      (dir = [] ∨ ∃ d : GoString, dir = d ++ ['/']) ∧
      '/' ∉ seg ∧ '.' ∉ seg ∧ '/' ∉ b ∧
      Base.getCallerPackage_pkg "github.com/geyslan/logger-poc/outerpackage.empty.fun".toList =
        some (dir ++ seg) ∧
      Zap.getCallerInfo_pkg "github.com/geyslan/logger-poc/outerpackage.empty.fun".toList =
        some (dir ++ seg) ∧
      partAfterLastSlash (dir ++ seg) = seg ∧
      (('.' ∉ b ∨ ∃ T m : GoString, b = T ++ '.' :: m ∧ '.' ∉ T ∧ '.' ∉ m) →
        Simple.getCallerInfo_pkg
          "github.com/geyslan/logger-poc/outerpackage.empty.fun".toList = some seg) :=
  import_path_and_local_name "github.com/geyslan/logger-poc/outerpackage.empty.fun".toList
    (by decide)

/-- Claim C20: on a name with a `.` after its last `/` (any `.` when it has no `/`) the two
slice expressions of `getCallerInfo` of the simple variant are in bounds, so the
computation returns, and the package returned is a contiguous part of the name without
`/`. -/
theorem simple_slices_in_bounds (name : GoString)
    (h : LastIndexByte name '/' < LastIndexByte name '.') :
    (0 : Int) ≤ (if LastIndexByte name '/' < 0 then (0 : Int)
      else LastIndexByte name '/' + 1) ∧
    (if LastIndexByte name '/' < 0 then (0 : Int) else LastIndexByte name '/' + 1) ≤
      LastIndexByte name '.' ∧
    LastIndexByte name '.' ≤ name.length ∧
    ∃ pkg0 pkg : GoString,
      slice name (if LastIndexByte name '/' < 0 then (0 : Int)
        else LastIndexByte name '/' + 1) (LastIndexByte name '.') = some pkg0 ∧
      (LastIndexByte pkg0 '.' ≠ -1 →
        0 ≤ LastIndexByte pkg0 '.' ∧ LastIndexByte pkg0 '.' ≤ pkg0.length ∧
        slice pkg0 0 (LastIndexByte pkg0 '.') = some pkg) ∧
      (LastIndexByte pkg0 '.' = -1 → pkg = pkg0) ∧
      Simple.getCallerInfo_pkg name = some pkg ∧ pkg <:+: name ∧ '/' ∉ pkg := by
  obtain ⟨dir, tail, hname, htail, hdot, hdir⟩ := name_split name h
  rcases LastIndexByte_spec tail '.' with ⟨hno, _⟩ | ⟨u, v, ht, hv2, _⟩
  · exact absurd hdot hno
  have hu : '/' ∉ u := fun hm => htail (by rw [ht]; exact List.mem_append_left _ hm)
  have hv : '/' ∉ v := fun hm =>
    htail (by rw [ht]; exact List.mem_append_right _ (List.mem_cons_of_mem _ hm))
  have hn : name = dir ++ u ++ '.' :: v := by rw [hname, ht, List.append_assoc]
  have hslash : (if LastIndexByte name '/' < 0 then (0 : Int)
      else LastIndexByte name '/' + 1) = dir.length := by
    rw [hname]
    exact simple_lastSlash dir tail htail hdir
  have hld : LastIndexByte name '.' = (dir ++ u).length := by
    rw [hn]
    exact LastIndexByte_append_cons (dir ++ u) v '.' hv2
  have hs1 := simple_first_slice dir u v hu hv hv2 hdir
  rw [← hn] at hs1
  have hlen : name.length = dir.length + u.length + (v.length + 1) := by
    rw [hn]
    simp only [List.length_append, List.length_cons]
  refine ⟨?_, ?_, ?_, ?_⟩
  · rw [hslash]
    exact Int.ofNat_nonneg _
  · rw [hslash, hld]
    simp
  · rw [hld, hlen]
    simp only [List.length_append, Nat.cast_add, Nat.cast_one]
    omega
  · rcases LastIndexByte_spec u '.' with ⟨hu2, hm1⟩ | ⟨u1, u2, hu1, hu2, hm1⟩
    · refine ⟨u, u, hs1, fun hne => absurd hm1 hne, fun _ => rfl, ?_, ?_, hu⟩
      · rw [hn]
        exact simple_pkg_no_dot dir u v hu hv hv2 hdir hu2
      · exact ⟨dir, '.' :: v, hn.symm⟩
    · have h0 : (0 : Int) ≤ (u1.length : Int) := Int.ofNat_nonneg _
      refine ⟨u, u1, hs1, fun _ => ⟨?_, ?_, ?_⟩, fun he => ?_, ?_, ?_, ?_⟩
      · rw [hm1]
        exact h0
      · rw [hm1, hu1]
        simp only [List.length_append, List.length_cons, Nat.cast_add, Nat.cast_one]
        have : (0 : Int) ≤ (u2.length : Int) := Int.ofNat_nonneg _
        omega
      · rw [hm1, hu1]
        exact sliceTo_append u1 ('.' :: u2)
      · rw [hm1] at he
        omega
      · rw [hn, hu1]
        exact simple_pkg_with_dot dir u1 u2 v (hu1 ▸ hu) hv hv2 hdir hu2
      · refine ⟨dir, '.' :: u2 ++ '.' :: v, ?_⟩
        rw [hn, hu1]
        simp
      · exact fun hm => hu (by rw [hu1]; exact List.mem_append_left _ hm)

/-- Witness of claim C20: the function `Log` of package `outerpackage`. -/
theorem simple_slices_in_bounds_witness :
    ∃ pkg0 pkg : GoString,
      slice sampleOuterFrame.funcName
        (if LastIndexByte sampleOuterFrame.funcName '/' < 0 then (0 : Int)
          else LastIndexByte sampleOuterFrame.funcName '/' + 1)
        (LastIndexByte sampleOuterFrame.funcName '.') = some pkg0 ∧
      (LastIndexByte pkg0 '.' ≠ -1 →
        0 ≤ LastIndexByte pkg0 '.' ∧ LastIndexByte pkg0 '.' ≤ pkg0.length ∧
        slice pkg0 0 (LastIndexByte pkg0 '.') = some pkg) ∧
      (LastIndexByte pkg0 '.' = -1 → pkg = pkg0) ∧
      Simple.getCallerInfo_pkg sampleOuterFrame.funcName = some pkg ∧
      pkg <:+: sampleOuterFrame.funcName ∧ '/' ∉ pkg :=
  (simple_slices_in_bounds sampleOuterFrame.funcName (by decide)).2.2.2

end LoggerPoc
